import Mathlib

/-!
Verification development for the nano-banana image-generation Cloudflare worker
(src/worker.ts).  The worker is shallowly embedded: JavaScript runtime values
are modelled by the inductive type JSValue, the platform primitives the worker
relies on (String.prototype.trim, atob, JSON.parse, JSON.stringify) are
modelled as executable Lean functions, and each worker function
(retryWithBackoff, normalizeImageInput, getHeaderValue, the batch-generation
loop, the PayloadStore durable object, the error classifier of the single
generation endpoint, and the R2 key derivations) is translated into a Lean
definition of the same name.  Delays and upstream calls are made observable by
returning them as explicit traces.
-/

set_option maxRecDepth 10000

/-- Model of a JavaScript runtime value as it can reach the worker code:
null and undefined are merged into jsNull (the worker only tests them with
loose equality and truthiness), numbers keep their source literal (the worker
never inspects a numeric value of an image input), strings, booleans, arrays,
plain objects as ordered field lists, and blob-like values (Blob and File)
which carry bytes, a MIME type string and an optional name. -/
inductive JSValue where
  | jsNull : JSValue
  | jsBool : Bool → JSValue
  | jsNum : String → JSValue
  | jsStr : String → JSValue
  | jsArr : List JSValue → JSValue
  | jsObj : List (String × JSValue) → JSValue
  | jsBlob : List Nat → String → Option String → JSValue

/-- Characters treated as whitespace by the JavaScript regular-expression
class backslash-s and by String.prototype.trim (restricted to the ASCII part;
the worker never receives the exotic Unicode spaces). -/
def jsIsWhitespace (c : Char) : Bool :=
  c = ' ' || c = '\t' || c = '\n' || c = '\x0d' || c = '\x0b' || c = '\x0c'

/-- Model of String.prototype.trim: drop leading and trailing whitespace. -/
def jsTrim (s : String) : String :=
  String.mk (((s.data.dropWhile jsIsWhitespace).reverse.dropWhile jsIsWhitespace).reverse)

/-- Model of value.replace with the global whitespace pattern and an empty
replacement: remove every whitespace character. -/
def jsStripWs (s : String) : String :=
  String.mk (s.data.filter (fun c => !jsIsWhitespace c))

/-- Model of String.prototype.toLowerCase restricted to ASCII. -/
def jsToLower (s : String) : String :=
  String.mk (s.data.map Char.toLower)

/-- Model of String.prototype.startsWith. -/
def jsStartsWith (s pre : String) : Bool :=
  pre.data.isPrefixOf s.data

/-- Model of String.prototype.endsWith. -/
def jsEndsWith (s suf : String) : Bool :=
  suf.data.reverse.isPrefixOf s.data.reverse

/-- Does the needle occur as a contiguous run inside the haystack?  Model of
String.prototype.includes. -/
def jsIncludes (hay needle : List Char) : Bool :=
  match hay with
  | [] => needle.isEmpty
  | _ :: rest => needle.isPrefixOf hay || jsIncludes rest needle

/-- String-level wrapper for jsIncludes. -/
def jsIncludesStr (hay needle : String) : Bool :=
  jsIncludes hay.data needle.data

/-- JavaScript truthy-or-else on optional strings: a || b where undefined and
the empty string are falsy. -/
def jsOr (a b : Option String) : Option String :=
  match a with
  | some s => if s = "" then b else some s
  | none => b

/-- JavaScript truthy-or-else against a final string default. -/
def jsOrD (a : Option String) (d : String) : String :=
  match a with
  | some s => if s = "" then d else s
  | none => d

/-- Whitespace characters stripped by the forgiving-base64 decode behind atob:
tab, line feed, form feed, carriage return and space. -/
def atobIsWs (c : Char) : Bool :=
  c = '\t' || c = '\n' || c = '\x0c' || c = '\x0d' || c = ' '

/-- Value of one base64 alphabet character, none for a character outside the
alphabet. -/
def b64Val (c : Char) : Option Nat :=
  if 'A' ≤ c ∧ c ≤ 'Z' then some (c.toNat - 'A'.toNat)
  else if 'a' ≤ c ∧ c ≤ 'z' then some (c.toNat - 'a'.toNat + 26)
  else if '0' ≤ c ∧ c ≤ '9' then some (c.toNat - '0'.toNat + 52)
  else if c = '+' then some 62
  else if c = '/' then some 63
  else none

/-- Decode a list of base64 digit values (each below 64) into bytes; a final
group of two digits yields one byte, of three digits two bytes.  A final group
of one digit cannot occur because atobModel rejects it beforehand. -/
def b64Decode : List Nat → List Nat
  | a :: b :: c :: d :: rest =>
      let n := ((a * 64 + b) * 64 + c) * 64 + d
      (n / 65536) :: (n / 256 % 256) :: (n % 256) :: b64Decode rest
  | [a, b] => [(a * 64 + b) / 16]
  | [a, b, c] => let n := (a * 64 + b) * 64 + c; [n / 1024, n / 4 % 256]
  | _ => []

/-- Model of the atob builtin (the forgiving-base64 decode): strip ASCII
whitespace, strip up to two trailing padding signs when the length is a
multiple of four, reject a remainder of one and any character outside the
base64 alphabet, then decode.  The worker reads the resulting binary string
byte by byte with charCodeAt, so the model returns the bytes directly. -/
def atobModel (s : String) : Option (List Nat) :=
  let cs := s.data.filter (fun c => !atobIsWs c)
  let cs :=
    if cs.length % 4 = 0 then
      if cs.reverse.take 2 = ['=', '='] then cs.take (cs.length - 2)
      else if cs.reverse.take 1 = ['='] then cs.take (cs.length - 1)
      else cs
    else cs
  if cs.length % 4 = 1 then none
  else
    match cs.mapM b64Val with
    | some vals => some (b64Decode vals)
    | none => none

/-- Model of the worker function base64ToArrayBuffer: atob followed by reading
each character code.  Fallible because atob throws an InvalidCharacterError on
input outside the forgiving-base64 grammar. -/
def base64ToArrayBuffer (s : String) : Option (List Nat) := atobModel s

/-- JSON whitespace (the only characters JSON.parse skips between tokens). -/
def jsonWs (c : Char) : Bool :=
  c = ' ' || c = '\t' || c = '\n' || c = '\x0d'

/-- Skip JSON whitespace. -/
def jpSkipWs (cs : List Char) : List Char := cs.dropWhile jsonWs

/-- Decimal digit test. -/
def isDigitChar (c : Char) : Bool := '0' ≤ c ∧ c ≤ '9'

/-- Hexadecimal digit value. -/
def hexVal (c : Char) : Option Nat :=
  if '0' ≤ c ∧ c ≤ '9' then some (c.toNat - '0'.toNat)
  else if 'a' ≤ c ∧ c ≤ 'f' then some (c.toNat - 'a'.toNat + 10)
  else if 'A' ≤ c ∧ c ≤ 'F' then some (c.toNat - 'A'.toNat + 10)
  else none

/-- Parse the body of a JSON string literal after the opening quote, handling
the escape sequences of the JSON grammar.  Unicode escapes are accepted only
at scalar values (the worker never feeds surrogate pairs through this path).
Returns the decoded string and the characters after the closing quote. -/
def jpStringBody : List Char → List Char → Option (String × List Char)
  | acc, '"' :: rest => some (String.mk acc.reverse, rest)
  | acc, '\\' :: e :: rest =>
      match e with
      | '"' => jpStringBody ('"' :: acc) rest
      | '\\' => jpStringBody ('\\' :: acc) rest
      | '/' => jpStringBody ('/' :: acc) rest
      | 'b' => jpStringBody ('\x08' :: acc) rest
      | 'f' => jpStringBody ('\x0c' :: acc) rest
      | 'n' => jpStringBody ('\n' :: acc) rest
      | 'r' => jpStringBody ('\x0d' :: acc) rest
      | 't' => jpStringBody ('\t' :: acc) rest
      | 'u' =>
          match rest with
          | h1 :: h2 :: h3 :: h4 :: rest2 =>
              match hexVal h1, hexVal h2, hexVal h3, hexVal h4 with
              | some a, some b, some c, some d =>
                  let n := ((a * 16 + b) * 16 + c) * 16 + d
                  if n < 0xd800 ∨ (0xdfff < n ∧ n < 0x110000) then
                    jpStringBody (Char.ofNat n :: acc) rest2
                  else none
              | _, _, _, _ => none
          | _ => none
      | _ => none
  | acc, c :: rest => if c.toNat < 0x20 then none else jpStringBody (c :: acc) rest
  | _, [] => none

/-- Parse a JSON number literal; the consumed characters are kept verbatim as
the representation of the number (no part of the worker ever inspects the
numeric value of a JSON number, so the literal is a faithful model). -/
def jpNumber (cs : List Char) : Option (String × List Char) :=
  let (sign, cs1) :=
    match cs with
    | '-' :: rest => (['-'], rest)
    | _ => (([] : List Char), cs)
  match cs1 with
  | c :: _ =>
    if isDigitChar c then
      let intDigits := cs1.takeWhile isDigitChar
      let afterInt := cs1.dropWhile isDigitChar
      if intDigits.length > 1 ∧ intDigits.headD 'x' = '0' then none
      else
        let (fracPart, afterFrac) :=
          match afterInt with
          | '.' :: d :: rest =>
              if isDigitChar d then
                ('.' :: (d :: rest).takeWhile isDigitChar,
                  (d :: rest).dropWhile isDigitChar)
              else (([] : List Char), afterInt)
          | _ => (([] : List Char), afterInt)
        let expResult : Option (List Char × List Char) :=
          match afterFrac with
          | e :: rest =>
              if e = 'e' ∨ e = 'E' then
                match rest with
                | s :: d :: rest2 =>
                    if (s = '+' ∨ s = '-') ∧ isDigitChar d then
                      some (e :: s :: (d :: rest2).takeWhile isDigitChar,
                        (d :: rest2).dropWhile isDigitChar)
                    else if isDigitChar s then
                      some (e :: (s :: d :: rest2).takeWhile isDigitChar,
                        (s :: d :: rest2).dropWhile isDigitChar)
                    else none
                | [d] =>
                    if isDigitChar d then some (e :: [d], ([] : List Char)) else none
                | [] => none
              else some (([] : List Char), afterFrac)
          | [] => some (([] : List Char), afterFrac)
        match expResult with
        | none => none
        | some (ep, rest) =>
            some (String.mk (sign ++ intDigits ++ fracPart ++ ep), rest)
    else none
  | [] => none

/-- Insert one parsed object member the way JavaScript property assignment
does during JSON.parse: a repeated key keeps its first position but takes the
last value. -/
def jsObjInsert (fields : List (String × JSValue)) (k : String) (v : JSValue) :
    List (String × JSValue) :=
  if fields.any (fun p => p.1 = k) then
    fields.map (fun p => if p.1 = k then (k, v) else p)
  else fields ++ [(k, v)]

mutual

/-- Fuel-driven recursive-descent parser for one JSON value, the model of the
grammar accepted by JSON.parse.  The fuel only bounds nesting and element
counts; jsonParse supplies more fuel than any input can consume. -/
def jpValue : Nat → List Char → Option (JSValue × List Char)
  | 0, _ => none
  | fuel + 1, cs =>
    match jpSkipWs cs with
    | 'n' :: 'u' :: 'l' :: 'l' :: rest => some (.jsNull, rest)
    | 't' :: 'r' :: 'u' :: 'e' :: rest => some (.jsBool true, rest)
    | 'f' :: 'a' :: 'l' :: 's' :: 'e' :: rest => some (.jsBool false, rest)
    | '"' :: rest =>
        match jpStringBody [] rest with
        | some (s, rest2) => some (.jsStr s, rest2)
        | none => none
    | '[' :: rest =>
        (match jpSkipWs rest with
         | ']' :: rest2 => some (.jsArr [], rest2)
         | other => jpArrayItems fuel other [])
    | '{' :: rest =>
        (match jpSkipWs rest with
         | '}' :: rest2 => some (.jsObj [], rest2)
         | other => jpObjectItems fuel other [])
    | c :: restAll =>
        if c = '-' ∨ isDigitChar c then
          match jpNumber (c :: restAll) with
          | some (lit, rest2) => some (.jsNum lit, rest2)
          | none => none
        else none
    | [] => none

/-- Parse the comma-separated items of a non-empty JSON array. -/
def jpArrayItems : Nat → List Char → List JSValue → Option (JSValue × List Char)
  | 0, _, _ => none
  | fuel + 1, cs, acc =>
    match jpValue fuel cs with
    | some (v, rest) =>
        (match jpSkipWs rest with
         | ',' :: rest2 => jpArrayItems fuel rest2 (acc ++ [v])
         | ']' :: rest2 => some (.jsArr (acc ++ [v]), rest2)
         | _ => none)
    | none => none

/-- Parse the comma-separated members of a non-empty JSON object. -/
def jpObjectItems : Nat → List Char → List (String × JSValue) →
    Option (JSValue × List Char)
  | 0, _, _ => none
  | fuel + 1, cs, acc =>
    match jpSkipWs cs with
    | '"' :: rest =>
        (match jpStringBody [] rest with
         | some (k, rest2) =>
             (match jpSkipWs rest2 with
              | ':' :: rest3 =>
                  (match jpValue fuel rest3 with
                   | some (v, rest4) =>
                       (match jpSkipWs rest4 with
                        | ',' :: rest5 => jpObjectItems fuel rest5 (jsObjInsert acc k v)
                        | '}' :: rest5 => some (.jsObj (jsObjInsert acc k v), rest5)
                        | _ => none)
                   | none => none)
              | _ => none)
         | none => none)
    | _ => none

end

/-- Model of JSON.parse: parse one value surrounded by whitespace and require
the whole input to be consumed; none models the SyntaxError throw. -/
def jsonParse (s : String) : Option JSValue :=
  match jpValue (2 * s.length + 4) s.data with
  | some (v, rest) => if (jpSkipWs rest).isEmpty then some v else none
  | none => none

/-- Escape one character for a JSON string literal, as JSON.stringify does. -/
def jsonEscapeChar (c : Char) : List Char :=
  if c = '"' then ['\\', '"']
  else if c = '\\' then ['\\', '\\']
  else if c = '\x08' then ['\\', 'b']
  else if c = '\x0c' then ['\\', 'f']
  else if c = '\n' then ['\\', 'n']
  else if c = '\x0d' then ['\\', 'r']
  else if c = '\t' then ['\\', 't']
  else if c.toNat < 0x20 then
    ['\\', 'u', '0', '0',
      (Nat.digitChar (c.toNat / 16)), (Nat.digitChar (c.toNat % 16))]
  else [c]

/-- Quote a string as a JSON string literal. -/
def jsonQuote (s : String) : String :=
  String.mk ('"' :: (s.data.flatMap jsonEscapeChar) ++ ['"'])

mutual

/-- Model of JSON.stringify on values produced by JSON.parse.  A number is
printed as its stored literal.  A blob has no enumerable own properties, so
JSON.stringify renders it as an empty object; blobs never reach the payload
path, which only handles parsed JSON. -/
def jsonStringify : JSValue → String
  | .jsNull => "null"
  | .jsBool true => "true"
  | .jsBool false => "false"
  | .jsNum lit => lit
  | .jsStr s => jsonQuote s
  | .jsArr es => "[" ++ jsonStringifyList es ++ "]"
  | .jsObj fs => "\x7b" ++ jsonStringifyFields fs ++ "\x7d"
  | .jsBlob _ _ _ => "\x7b\x7d"

/-- Comma-join the stringified elements of an array. -/
def jsonStringifyList : List JSValue → String
  | [] => ""
  | [v] => jsonStringify v
  | v :: rest => jsonStringify v ++ "," ++ jsonStringifyList rest

/-- Comma-join the stringified members of an object. -/
def jsonStringifyFields : List (String × JSValue) → String
  | [] => ""
  | [(k, v)] => jsonQuote k ++ ":" ++ jsonStringify v
  | (k, v) :: rest => jsonQuote k ++ ":" ++ jsonStringify v ++ "," ++ jsonStringifyFields rest

end

mutual

/-- Size measure on JSValue used to pick a sufficient recursion fuel for the
normalizer: a string counts its length so that a value obtained by JSON
parsing a string is never larger than the string itself. -/
def jsMeasure : JSValue → Nat
  | .jsNull => 1
  | .jsBool _ => 1
  | .jsNum _ => 1
  | .jsStr s => s.length + 1
  | .jsArr es => jsMeasureList es + 1
  | .jsObj fs => jsMeasureFields fs + 1
  | .jsBlob _ _ _ => 1

/-- Sum of the measures of a list of values. -/
def jsMeasureList : List JSValue → Nat
  | [] => 0
  | v :: rest => jsMeasure v + jsMeasureList rest

/-- Sum of the measures of the values of a field list. -/
def jsMeasureFields : List (String × JSValue) → Nat
  | [] => 0
  | (_, v) :: rest => jsMeasure v + jsMeasureFields rest

end

/-- Property read on a modelled object: the value of the first field with the
given key (objects coming out of JSON.parse have unique keys). -/
def lookupField : List (String × JSValue) → String → Option JSValue
  | [], _ => none
  | (k, v) :: rest, key => if k = key then some v else lookupField rest key

/-- JSON.parse as used inside normalizeImageInput, with a measure guard: a
parse result is accepted only when its measure is bounded by the length of the
parsed string.  Any genuine parse satisfies the bound (every nested value is
written inside the string that was parsed), so the guard never rejects a real
parse; it only makes the bounded recursion of the normalizer self-evident. -/
def jsonParseChecked (s : String) : Option JSValue :=
  match jsonParse s with
  | some v => if jsMeasure v ≤ s.length then some v else none
  | none => none

/-- The worker constant EXTENSION_TO_MIME as a lookup function. -/
def EXTENSION_TO_MIME : String → Option String
  | "jpg" => some "image/jpeg"
  | "jpeg" => some "image/jpeg"
  | "png" => some "image/png"
  | "gif" => some "image/gif"
  | "webp" => some "image/webp"
  | "heic" => some "image/heic"
  | "heif" => some "image/heif"
  | "avif" => some "image/avif"
  | "bmp" => some "image/bmp"
  | "svg" => some "image/svg+xml"
  | "tif" => some "image/tiff"
  | "tiff" => some "image/tiff"
  | _ => none

/-- The worker constant MIME_TO_EXTENSION as a lookup function. -/
def MIME_TO_EXTENSION : String → Option String
  | "image/jpeg" => some "jpg"
  | "image/jpg" => some "jpg"
  | "image/png" => some "png"
  | "image/gif" => some "gif"
  | "image/webp" => some "webp"
  | "image/heic" => some "heic"
  | "image/heif" => some "heif"
  | "image/avif" => some "avif"
  | "image/bmp" => some "bmp"
  | "image/svg+xml" => some "svg"
  | "image/tiff" => some "tiff"
  | _ => none

/-- Model of getExtensionFromFilename: the substring after the last dot,
lowercased; none when the filename is absent or empty, has no dot, or ends in
a dot. -/
def getExtensionFromFilename (filename : Option String) : Option String :=
  match filename with
  | none => none
  | some f =>
      if f = "" then none
      else
        let afterLastDot := (f.data.reverse.takeWhile (fun c => c ≠ '.')).reverse
        if ('.' ∈ f.data) ∧ afterLastDot ≠ [] then
          some (jsToLower (String.mk afterLastDot))
        else none

/-- Model of guessMimeTypeFromFilename. -/
def guessMimeTypeFromFilename (filename : Option String) : Option String :=
  match getExtensionFromFilename filename with
  | none => none
  | some ext => EXTENSION_TO_MIME ext

/-- Model of getExtensionFromMimeType. -/
def getExtensionFromMimeType (mimeType : Option String) : Option String :=
  match mimeType with
  | none => none
  | some m => if m = "" then none else MIME_TO_EXTENSION (jsToLower m)

/-- Nullish property read used by getHeaderValue: the double-question-mark
chain skips a property that is absent or holds null or undefined. -/
def lookupNonNull (fields : List (String × JSValue)) (key : String) : Option JSValue :=
  match lookupField fields key with
  | some .jsNull => none
  | other => other

/-- Model of getHeaderValue for the header name Content-Type: the worker reads
the property at the header name exactly as given, then at its lowercased
spelling (twice in the source; the repetition computes the same value).  An
array value contributes its first element when that is a string; a string
value is returned as is; anything else yields undefined.  A headers value that
is not an object (or is null) yields undefined; arrays and blobs are objects
but have no string-keyed own properties, so they also yield undefined. -/
def getHeaderValue (headers : Option JSValue) (header : String) : Option String :=
  match headers with
  | some (.jsObj hf) =>
      let value :=
        match lookupNonNull hf header with
        | some v => some v
        | none => lookupNonNull hf (jsToLower header)
      match value with
      | some (.jsArr elems) =>
          match elems.head? with
          | some (.jsStr s) => some s
          | _ => none
      | some (.jsStr s) => some s
      | _ => none
  | _ => none

/-- Model of the anchored case-insensitive data-URL pattern of
extractBase64AndMime: data colon, a non-empty run without semicolons, the
literal semicolon-base64-comma, then a non-empty payload free of line
terminators.  Returns the MIME group and the payload group. -/
def dataUrlMatch (cs : List Char) : Option (String × String) :=
  match cs with
  | c1 :: c2 :: c3 :: c4 :: c5 :: rest =>
      if jsToLower (String.mk [c1, c2, c3, c4, c5]) = "data:" then
        let mime := rest.takeWhile (fun c => c ≠ ';')
        let afterMime := rest.dropWhile (fun c => c ≠ ';')
        if mime = [] then none
        else
          match afterMime with
          | s1 :: s2 :: s3 :: s4 :: s5 :: s6 :: s7 :: s8 :: payload =>
              if jsToLower (String.mk [s1, s2, s3, s4, s5, s6, s7, s8]) = ";base64," ∧
                  payload ≠ [] ∧ payload.all (fun c => c ≠ '\n' ∧ c ≠ '\x0d') then
                some (String.mk mime, String.mk payload)
              else none
          | _ => none
      else none
  | _ => none

/-- Model of extractBase64AndMime: trim, try the data-URL pattern (both groups
are non-empty whenever the pattern matches, so the inner truthiness guard of
the source always passes), otherwise strip all whitespace and return the
result as the base64 payload with no MIME hint. -/
def extractBase64AndMime (value : String) : String × Option String :=
  let trimmed := jsTrim value
  match dataUrlMatch trimmed.data with
  | some (mime, data) => (data, some mime)
  | none => (jsStripWs trimmed, none)

/-- The canonical output of image-input normalization. -/
structure NormalizedImageData where
  buffer : List Nat
  mimeType : String
  filename : String
deriving DecidableEq

/-- The terminal string branch of normalizeImageInput: decode the trimmed
string as a data URL or bare base64; the data-URL MIME hint is honoured only
when it starts with image slash, otherwise the MIME type defaults to
image/jpeg.  The error models the InvalidCharacterError that atob throws on a
payload outside the forgiving-base64 grammar. -/
def normalizeStringAsBase64 (trimmed : String) : Except String NormalizedImageData :=
  let (base64, mimeTypeHint) := extractBase64AndMime trimmed
  match base64ToArrayBuffer base64 with
  | none => .error "InvalidCharacterError"
  | some buffer =>
      .ok { buffer := buffer,
            mimeType :=
              match mimeTypeHint with
              | some h => if jsStartsWith h "image/" then h else "image/jpeg"
              | none => "image/jpeg",
            filename := "uploaded-image" }

/-- The blob branch of normalizeImageInput: bytes are read from the blob, the
filename comes from a non-empty name property (else the placeholder), and the
MIME type is the blob type, else the filename guess, else image/jpeg. -/
def normalizeBlobInput (bytes : List Nat) (btype : String) (name : Option String) :
    NormalizedImageData :=
  let filename :=
    match name with
    | some n => if n.length > 0 then n else "uploaded-image"
    | none => "uploaded-image"
  { buffer := bytes,
    mimeType := jsOrD (jsOr (some btype) (guessMimeTypeFromFilename (some filename)))
      "image/jpeg",
    filename := filename }

/-- The structured-object branch of normalizeImageInput for an object with a
string content field, split into its filename and MIME resolution parts. -/
def contentFilename (fields : List (String × JSValue)) : String :=
  match lookupField fields "filename" with
  | some (.jsStr f) => if f.length > 0 then f else "uploaded-image"
  | _ => "uploaded-image"

/-- The explicit mimeType field of a content object: a non-empty string field
counts, everything else is as good as undefined. -/
def contentExplicitMime (fields : List (String × JSValue)) : Option String :=
  match lookupField fields "mimeType" with
  | some (.jsStr m) => if m.length > 0 then some m else none
  | _ => none

/-- The MIME type a content object resolves to, by the truthy-or chain of the
source: explicit mimeType field, else Content-Type header, else data-URL hint,
else filename guess, else image/jpeg. -/
def contentMimeType (fields : List (String × JSValue)) (mimeTypeHint : Option String) : String :=
  jsOrD (jsOr (contentExplicitMime fields)
    (jsOr (getHeaderValue (lookupField fields "headers") "Content-Type")
      (jsOr mimeTypeHint
        (guessMimeTypeFromFilename (some (contentFilename fields)))))) "image/jpeg"

def normalizeContentObject (fields : List (String × JSValue)) (content : String) :
    Except String NormalizedImageData :=
  let (base64, mimeTypeHint) := extractBase64AndMime content
  match base64ToArrayBuffer base64 with
  | none => .error "InvalidCharacterError"
  | some buffer =>
      .ok { buffer := buffer,
            mimeType := contentMimeType fields mimeTypeHint,
            filename := contentFilename fields }

/-- Fuel-driven body of normalizeImageInput, following the source branch by
branch: null and undefined fail with the no-input error; a string that looks
like a JSON object is parsed and recursed on (a failed parse falls through to
the base64 treatment); a blob-like value is read directly; an object recurses
on an image field when that key is present, else uses a string content field,
else fails with the unsupported-format error, as does every other shape.
normalizeImageInput supplies fuel that the recursion can never exhaust. -/
def normGo : Nat → JSValue → Except String NormalizedImageData
  | 0, _ => .error "recursion fuel exhausted"
  | fuel + 1, v =>
    match v with
    | .jsNull => .error "No image input provided"
    | .jsStr s =>
        let trimmed := jsTrim s
        if jsStartsWith trimmed "\x7b" ∧ jsEndsWith trimmed "\x7d" then
          match jsonParseChecked trimmed with
          | some parsed => normGo fuel parsed
          | none => normalizeStringAsBase64 trimmed
        else normalizeStringAsBase64 trimmed
    | .jsBlob bytes btype name => .ok (normalizeBlobInput bytes btype name)
    | .jsObj fields =>
        match lookupField fields "image" with
        | some inner => normGo fuel inner
        | none =>
            match lookupField fields "content" with
            | some (.jsStr c) => normalizeContentObject fields c
            | _ => .error "Unsupported image input format"
    | _ => .error "Unsupported image input format"

/-- Model of normalizeImageInput. -/
def normalizeImageInput (v : JSValue) : Except String NormalizedImageData :=
  normGo (jsMeasure v + 1) v

/-- Terminal shapes of an image input after the unwrapping that
normalizeImageInput performs.  Modelled from the spec: the failure-mode
paragraph describes inputs by what they are after unwrapping JSON-string
parsing and nested image fields. -/
inductive ImageShape where
  | nullish : ImageShape
  | plainString : String → ImageShape
  | blobShape : List Nat → String → Option String → ImageShape
  | contentShape : List (String × JSValue) → String → ImageShape
  | unrecognized : ImageShape

/-- Spec-side classification of an image input: unwrap JSON-looking strings
and nested image fields exactly as the normalizer does and report the terminal
shape reached. -/
def classifyGo : Nat → JSValue → ImageShape
  | 0, _ => .unrecognized
  | fuel + 1, v =>
    match v with
    | .jsNull => .nullish
    | .jsStr s =>
        let trimmed := jsTrim s
        if jsStartsWith trimmed "\x7b" ∧ jsEndsWith trimmed "\x7d" then
          match jsonParseChecked trimmed with
          | some parsed => classifyGo fuel parsed
          | none => .plainString trimmed
        else .plainString trimmed
    | .jsBlob bytes btype name => .blobShape bytes btype name
    | .jsObj fields =>
        match lookupField fields "image" with
        | some inner => classifyGo fuel inner
        | none =>
            match lookupField fields "content" with
            | some (.jsStr c) => .contentShape fields c
            | _ => .unrecognized
    | _ => .unrecognized

/-- Classification entry point with the same fuel as normalizeImageInput. -/
def classifyImageInput (v : JSValue) : ImageShape :=
  classifyGo (jsMeasure v + 1) v

/-- Trimming never lengthens a string. -/
theorem jsTrim_length_le (s : String) : (jsTrim s).length ≤ s.length := by
  show (((s.data.dropWhile jsIsWhitespace).reverse.dropWhile jsIsWhitespace).reverse).length
      ≤ s.data.length
  rw [List.length_reverse]
  calc ((s.data.dropWhile jsIsWhitespace).reverse.dropWhile jsIsWhitespace).length
      ≤ (s.data.dropWhile jsIsWhitespace).reverse.length :=
        (List.dropWhile_sublist _).length_le
    _ = (s.data.dropWhile jsIsWhitespace).length := List.length_reverse _
    _ ≤ s.data.length := (List.dropWhile_sublist _).length_le

/-- A value read out of a field list is no larger than the whole field list. -/
theorem lookupField_measure_le (fs : List (String × JSValue)) (k : String) (v : JSValue)
    (h : lookupField fs k = some v) : jsMeasure v ≤ jsMeasureFields fs := by
  induction fs with
  | nil => simp [lookupField] at h
  | cons p rest ih =>
      obtain ⟨k', v'⟩ := p
      by_cases hk : k' = k
      · simp [lookupField, hk] at h
        subst h
        simp [jsMeasureFields]
      · simp [lookupField, hk] at h
        have := ih h
        simp [jsMeasureFields]
        omega

/-- The guarded parse only returns values bounded by the parsed string. -/
theorem jsonParseChecked_measure (s : String) (v : JSValue)
    (h : jsonParseChecked s = some v) : jsMeasure v ≤ s.length := by
  unfold jsonParseChecked at h
  cases hp : jsonParse s with
  | none => rw [hp] at h; exact absurd h (by simp)
  | some w =>
      rw [hp] at h
      by_cases hm : jsMeasure w ≤ s.length
      · simp [hm] at h; subst h; exact hm
      · simp [hm] at h

/-- The terminal string branch never produces the two named input errors. -/
theorem normalizeStringAsBase64_ne_named (t : String) :
    normalizeStringAsBase64 t ≠ .error "No image input provided" ∧
    normalizeStringAsBase64 t ≠ .error "Unsupported image input format" := by
  unfold normalizeStringAsBase64
  cases h : base64ToArrayBuffer (extractBase64AndMime t).1 <;> simp [h]

/-- The content-object branch never produces the two named input errors. -/
theorem normalizeContentObject_ne_named (fields : List (String × JSValue)) (c : String) :
    normalizeContentObject fields c ≠ .error "No image input provided" ∧
    normalizeContentObject fields c ≠ .error "Unsupported image input format" := by
  unfold normalizeContentObject
  cases h : base64ToArrayBuffer (extractBase64AndMime c).1 <;> simp [h]

/-- Core correspondence between the normalizer and the spec-side shape
classification: with enough fuel, the no-input error is produced exactly for
inputs that unwrap to null, and the unsupported-format error exactly for
inputs that unwrap to an unrecognized shape. -/
theorem normGo_error_iff (fuel : Nat) :
    ∀ v : JSValue, jsMeasure v < fuel →
      ((normGo fuel v = .error "No image input provided" ↔
          classifyGo fuel v = .nullish) ∧
        (normGo fuel v = .error "Unsupported image input format" ↔
          classifyGo fuel v = .unrecognized)) := by
  induction fuel with
  | zero => intro v hv; exact absurd hv (Nat.not_lt_zero _)
  | succ fuel ih =>
      intro v hv
      cases v with
      | jsNull => simp [normGo, classifyGo]
      | jsBool b => simp [normGo, classifyGo]
      | jsNum lit => simp [normGo, classifyGo]
      | jsArr es => simp [normGo, classifyGo]
      | jsBlob bytes btype name => simp [normGo, classifyGo]
      | jsStr s =>
          have hs : s.length < fuel := by
            have : jsMeasure (.jsStr s) = s.length + 1 := rfl
            omega
          by_cases hb : jsStartsWith (jsTrim s) "\x7b" ∧ jsEndsWith (jsTrim s) "\x7d"
          · cases hp : jsonParseChecked (jsTrim s) with
            | some parsed =>
                have hm : jsMeasure parsed < fuel := by
                  have h1 := jsonParseChecked_measure _ _ hp
                  have h2 := jsTrim_length_le s
                  omega
                have := ih parsed hm
                simpa [normGo, classifyGo, hb, hp] using this
            | none =>
                have h1 := normalizeStringAsBase64_ne_named (jsTrim s)
                simp [normGo, classifyGo, hb, hp, h1.1, h1.2]
          · have h1 := normalizeStringAsBase64_ne_named (jsTrim s)
            simp [normGo, classifyGo, hb, h1.1, h1.2]
      | jsObj fields =>
          cases hi : lookupField fields "image" with
          | some inner =>
              have hm : jsMeasure inner < fuel := by
                have h1 := lookupField_measure_le fields "image" inner hi
                have : jsMeasure (.jsObj fields) = jsMeasureFields fields + 1 := rfl
                omega
              have := ih inner hm
              simpa [normGo, classifyGo, hi] using this
          | none =>
              cases hc : lookupField fields "content" with
              | some cv =>
                  cases cv with
                  | jsStr c =>
                      have h1 := normalizeContentObject_ne_named fields c
                      simp [normGo, classifyGo, hi, hc, h1.1, h1.2]
                  | jsNull => simp [normGo, classifyGo, hi, hc]
                  | jsBool b => simp [normGo, classifyGo, hi, hc]
                  | jsNum l => simp [normGo, classifyGo, hi, hc]
                  | jsArr es => simp [normGo, classifyGo, hi, hc]
                  | jsObj fs => simp [normGo, classifyGo, hi, hc]
                  | jsBlob a b c => simp [normGo, classifyGo, hi, hc]
              | none => simp [normGo, classifyGo, hi, hc]

/-- Claim C3, counterexample: the object with an image field holding null is
not null or undefined, yet normalizeImageInput fails on it with the error
reserved for null or undefined input, because the normalizer first unwraps the
image field.  This refutes the claimed exact characterization of the
no-input error. -/
theorem c3_counterexample :
    normalizeImageInput (.jsObj [("image", .jsNull)]) = .error "No image input provided" ∧
      JSValue.jsObj [("image", .jsNull)] ≠ JSValue.jsNull :=
  ⟨rfl, fun h => JSValue.noConfusion h⟩

/-- Claim C3 as amended: normalizeImageInput fails with the no-input error
exactly when its input unwraps (through JSON-string parsing and nested image
fields) to null or undefined; it fails with the unsupported-format error
exactly when the input unwraps to a fully unrecognized shape; it never returns
an image for either kind of input; and a string that looks like a JSON object
but fails to parse is processed by the literal base64 treatment rather than
either named error. -/
theorem c3_normalize_error_characterization :
    (∀ v : JSValue,
        normalizeImageInput v = .error "No image input provided" ↔
          classifyImageInput v = .nullish) ∧
    (∀ v : JSValue,
        normalizeImageInput v = .error "Unsupported image input format" ↔
          classifyImageInput v = .unrecognized) ∧
    (∀ v : JSValue, ∀ r : NormalizedImageData,
        (classifyImageInput v = .nullish ∨ classifyImageInput v = .unrecognized) →
          normalizeImageInput v ≠ .ok r) ∧
    (∀ s : String,
        (jsStartsWith (jsTrim s) "\x7b" ∧ jsEndsWith (jsTrim s) "\x7d") →
          jsonParseChecked (jsTrim s) = none →
            normalizeImageInput (.jsStr s) = normalizeStringAsBase64 (jsTrim s)) := by
  have core : ∀ v : JSValue,
      (normalizeImageInput v = .error "No image input provided" ↔
        classifyImageInput v = .nullish) ∧
      (normalizeImageInput v = .error "Unsupported image input format" ↔
        classifyImageInput v = .unrecognized) := by
    intro v
    exact normGo_error_iff (jsMeasure v + 1) v (Nat.lt_succ_self _)
  refine ⟨fun v => (core v).1, fun v => (core v).2, ?_, ?_⟩
  · intro v r hcls hok
    rcases hcls with h | h
    · have := ((core v).1).mpr h
      rw [hok] at this
      exact Except.noConfusion this
    · have := ((core v).2).mpr h
      rw [hok] at this
      exact Except.noConfusion this
  · intro s hb hp
    show normGo (jsMeasure (JSValue.jsStr s) + 1) (.jsStr s) = normalizeStringAsBase64 (jsTrim s)
    simp [normGo, hb, hp]

/-- Concrete instances of the amended claim C3: a bare number fails with the
unsupported-format error, and a JSON-looking string that does not parse is
handed to the literal base64 treatment. -/
theorem c3_witness :
    normalizeImageInput (.jsNum "7") = .error "Unsupported image input format" ∧
      normalizeImageInput (.jsStr "\x7boops\x7d") = normalizeStringAsBase64 (jsTrim "\x7boops\x7d") :=
  ⟨(c3_normalize_error_characterization.2.1 (.jsNum "7")).mpr rfl,
    c3_normalize_error_characterization.2.2.2 "\x7boops\x7d" (by constructor <;> rfl) rfl⟩

/-- First defined and non-empty MIME candidate, else the default, written the
way the spec describes the priority order.  Modelled from the spec for
comparison with the truthy-or chain of the source. -/
def firstDefinedMime : List (Option String) → String
  | [] => "image/jpeg"
  | none :: rest => firstDefinedMime rest
  | some s :: rest => if s = "" then firstDefinedMime rest else s

/-- Spec-side MIME priority for content objects: explicit mimeType field, then
header value, then data-URL hint, then filename guess, then the default. -/
def specMimePriority (explicitMime headerMime dataUrlHint filenameGuess : Option String) :
    String :=
  firstDefinedMime [explicitMime, headerMime, dataUrlHint, filenameGuess]

/-- Unfold one step of the truthy-or chain. -/
theorem jsOrD_jsOr_step (a r : Option String) (d : String) :
    jsOrD (jsOr a r) d =
      match a with
      | some str => if str = "" then jsOrD r d else str
      | none => jsOrD r d := by
  cases a with
  | none => rfl
  | some str => by_cases h : str = "" <;> simp [jsOr, jsOrD, h]

/-- Unfold one step of the spec-side priority list. -/
theorem firstDefinedMime_cons (a : Option String) (rest : List (Option String)) :
    firstDefinedMime (a :: rest) =
      match a with
      | some str => if str = "" then firstDefinedMime rest else str
      | none => firstDefinedMime rest := by
  cases a <;> rfl

/-- The last candidate against the default. -/
theorem jsOrD_eq_firstDefinedMime_single (g : Option String) :
    jsOrD g "image/jpeg" = firstDefinedMime [g] := by
  cases g with
  | none => rfl
  | some str => by_cases h : str = "" <;> simp [jsOrD, firstDefinedMime, h]

/-- The truthy-or chain of the source computes the spec-side priority. -/
theorem contentMimeType_eq_priority (fields : List (String × JSValue))
    (mimeTypeHint : Option String) :
    contentMimeType fields mimeTypeHint =
      specMimePriority (contentExplicitMime fields)
        (getHeaderValue (lookupField fields "headers") "Content-Type")
        mimeTypeHint
        (guessMimeTypeFromFilename (some (contentFilename fields))) := by
  unfold contentMimeType specMimePriority
  rw [jsOrD_jsOr_step, jsOrD_jsOr_step, jsOrD_jsOr_step,
    firstDefinedMime_cons, firstDefinedMime_cons, firstDefinedMime_cons,
    jsOrD_eq_firstDefinedMime_single]

/-- Claim C4, counterexample: a headers map storing the key in upper case
CONTENT-TYPE is missed by the lookup, which only reads the exact spelling
Content-Type and the all-lowercase spelling, so the MIME type falls through to
the default image/jpeg instead of the header value image/png. -/
theorem c4_counterexample :
    normalizeImageInput (.jsObj [("content", .jsStr "QUJD"),
        ("headers", .jsObj [("CONTENT-TYPE", .jsStr "image/png")])]) =
      .ok { buffer := [65, 66, 67], mimeType := "image/jpeg",
            filename := "uploaded-image" } ∧
      "image/jpeg" ≠ "image/png" :=
  ⟨rfl, by decide⟩

/-- Claim C4 as amended: for a content object the resulting MIME type is the
first defined non-empty candidate among the explicit mimeType field, the
Content-Type header value, the data-URL hint and the filename guess, with
image/jpeg as the default; the header lookup succeeds when the stored key is
spelled exactly Content-Type or exactly content-type and misses every other
casing of the key. -/
theorem c4_mime_priority :
    (∀ (fields : List (String × JSValue)) (c : String) (r : NormalizedImageData),
        lookupField fields "image" = none →
        lookupField fields "content" = some (.jsStr c) →
        normalizeImageInput (.jsObj fields) = .ok r →
          r.mimeType = specMimePriority (contentExplicitMime fields)
            (getHeaderValue (lookupField fields "headers") "Content-Type")
            ((extractBase64AndMime c).2)
            (guessMimeTypeFromFilename (some (contentFilename fields)))) ∧
    (∀ v : String,
        getHeaderValue (some (.jsObj [("Content-Type", .jsStr v)])) "Content-Type" = some v) ∧
    (∀ v : String,
        getHeaderValue (some (.jsObj [("content-type", .jsStr v)])) "Content-Type" = some v) ∧
    (∀ k v : String, k ≠ "Content-Type" → k ≠ "content-type" →
        getHeaderValue (some (.jsObj [(k, .jsStr v)])) "Content-Type" = none) := by
  refine ⟨?_, ?_, ?_, ?_⟩
  · intro fields c r hi hc hok
    have : normalizeContentObject fields c = .ok r := by
      have hunfold : normalizeImageInput (.jsObj fields) = normalizeContentObject fields c := by
        show normGo (jsMeasure (JSValue.jsObj fields) + 1) (.jsObj fields) =
          normalizeContentObject fields c
        simp [normGo, hi, hc]
      rw [← hunfold]; exact hok
    unfold normalizeContentObject at this
    cases hpair : extractBase64AndMime c with
    | mk b64 hint =>
        rw [hpair] at this
        dsimp only at this
        cases hb : base64ToArrayBuffer b64 with
        | none => rw [hb] at this; exact absurd this (by simp)
        | some buf =>
            rw [hb] at this
            injection this with h
            rw [← h]
            simpa using contentMimeType_eq_priority fields hint
  · intro v
    rfl
  · intro v
    rfl
  · intro k v hk1 hk2
    have hlow : jsToLower "Content-Type" = "content-type" := rfl
    simp [getHeaderValue, lookupNonNull, lookupField, hlow, hk1, hk2]

/-- Concrete instance of the amended claim C4: a content object whose headers
map stores the all-lowercase key content-type resolves to the header value
image/webp, matching the spec-side priority. -/
theorem c4_witness :
    (({ buffer := [65, 66, 67], mimeType := "image/webp",
        filename := "uploaded-image" } : NormalizedImageData)).mimeType =
      specMimePriority
        (contentExplicitMime [("content", .jsStr "QUJD"),
          ("headers", .jsObj [("content-type", .jsStr "image/webp")])])
        (getHeaderValue (lookupField [("content", .jsStr "QUJD"),
          ("headers", .jsObj [("content-type", .jsStr "image/webp")])] "headers") "Content-Type")
        ((extractBase64AndMime "QUJD").2)
        (guessMimeTypeFromFilename (some (contentFilename [("content", .jsStr "QUJD"),
          ("headers", .jsObj [("content-type", .jsStr "image/webp")])]))) :=
  c4_mime_priority.1 [("content", .jsStr "QUJD"),
    ("headers", .jsObj [("content-type", .jsStr "image/webp")])] "QUJD"
    { buffer := [65, 66, 67], mimeType := "image/webp", filename := "uploaded-image" }
    rfl rfl rfl

/-- Observable outcome of one run of the retry wrapper: the final result, the
list of delays incurred between attempts (in milliseconds, in order), and how
many times the operation was invoked. -/
structure RetryOutcome (A : Type) where
  result : Except String A
  delays : List Nat
  calls : Nat

/-- Loop body of retryWithBackoff.  The operation is modelled as a function
from the zero-based attempt index to that invocation's outcome.  The fuel is
the number of loop iterations left (maxRetries minus the current attempt); on
fuel zero the loop has exited and the source throws the stale lastError
variable, which is still undefined when maxRetries is zero. -/
def retryAux {A : Type} (op : Nat → Except String A) (maxRetries baseDelay : Nat) :
    Nat → Nat → Except String A × List Nat × Nat
  | 0, _ => (.error "undefined", [], 0)
  | fuel + 1, attempt =>
    match op attempt with
    | .ok a => (.ok a, [], 1)
    | .error e =>
        if attempt = maxRetries - 1 then (.error e, [], 1)
        else
          let d := baseDelay * 2 ^ attempt
          let rest := retryAux op maxRetries baseDelay fuel (attempt + 1)
          (rest.1, d :: rest.2.1, rest.2.2 + 1)

/-- Model of retryWithBackoff: run the operation up to maxRetries times
(attempt indices start at zero), return the first success immediately, wait
baseDelay times two to the attempt index between a non-final failure and the
next attempt, and propagate the error of the final attempt.  The source
defaults are maxRetries three and baseDelay one thousand. -/
def retryWithBackoff {A : Type} (op : Nat → Except String A)
    (maxRetries baseDelay : Nat) : RetryOutcome A :=
  let r := retryAux op maxRetries baseDelay maxRetries 0
  { result := r.1, delays := r.2.1, calls := r.2.2 }

/-- Success run of the retry loop, generalized over the starting attempt. -/
theorem retryAux_success {A : Type} (op : Nat → Except String A)
    (maxRetries baseDelay k : Nat) (a : A) (hk : k < maxRetries)
    (hfail : ∀ i, i < k → ∃ e, op i = .error e) (hsucc : op k = .ok a) :
    ∀ fuel attempt, attempt + fuel = maxRetries → attempt ≤ k →
      retryAux op maxRetries baseDelay fuel attempt =
        (.ok a, (List.range' attempt (k - attempt)).map (fun i => baseDelay * 2 ^ i),
          k + 1 - attempt) := by
  intro fuel
  induction fuel with
  | zero => intro attempt hsum hle; omega
  | succ fuel ih =>
      intro attempt hsum hle
      by_cases heq : attempt = k
      · subst heq
        simp [retryAux, hsucc]
      · have hlt : attempt < k := by omega
        obtain ⟨e, he⟩ := hfail attempt hlt
        have hne : attempt ≠ maxRetries - 1 := by omega
        have hrec := ih (attempt + 1) (by omega) (by omega)
        simp only [retryAux, he, hne, if_false]
        rw [hrec]
        have hrange : List.range' attempt (k - attempt) =
            attempt :: List.range' (attempt + 1) (k - (attempt + 1)) := by
          have : k - attempt = (k - (attempt + 1)) + 1 := by omega
          rw [this, List.range'_succ]
        rw [hrange]
        simp
        omega

/-- Claim C1: when the operation first succeeds on the zero-based attempt k
(failing on every earlier attempt) and k is below maxRetries,
retryWithBackoff returns that success, makes exactly k plus one calls, and
incurs exactly the delays baseDelay times two to the i for i below k, in
order.  In particular with three attempts and two failures the delays are
baseDelay and twice baseDelay. -/
theorem c1_retry_success {A : Type} (op : Nat → Except String A)
    (maxRetries baseDelay k : Nat) (a : A) (hk : k < maxRetries)
    (hfail : ∀ i, i < k → ∃ e, op i = .error e) (hsucc : op k = .ok a) :
    retryWithBackoff op maxRetries baseDelay =
      { result := .ok a,
        delays := (List.range k).map (fun i => baseDelay * 2 ^ i),
        calls := k + 1 } := by
  unfold retryWithBackoff
  rw [retryAux_success op maxRetries baseDelay k a hk hfail hsucc maxRetries 0
    (by omega) (by omega)]
  simp [List.range_eq_range']

/-- Concrete instance of claim C1: an operation failing twice then succeeding,
with three attempts and base delay seven, returns the success after three
calls with delays seven and fourteen. -/
theorem c1_witness :
    retryWithBackoff (fun i => if i < 2 then .error "boom" else .ok 42) 3 7 =
      { result := .ok 42, delays := [7, 14], calls := 3 } := by
  have h := c1_retry_success (fun i => if i < 2 then Except.error "boom" else Except.ok 42)
    3 7 2 42 (by omega)
    (by intro i hi; exact ⟨"boom", by simp [hi]⟩)
    (by simp)
  simpa using h

/-- Always-failing run of the retry loop, generalized over the starting
attempt. -/
theorem retryAux_all_fail {A : Type} (op : Nat → Except String A)
    (err : Nat → String) (maxRetries baseDelay : Nat)
    (hop : ∀ i, op i = .error (err i)) :
    ∀ fuel attempt, attempt + fuel = maxRetries → attempt < maxRetries →
      retryAux op maxRetries baseDelay fuel attempt =
        (.error (err (maxRetries - 1)),
          (List.range' attempt (maxRetries - 1 - attempt)).map (fun i => baseDelay * 2 ^ i),
          maxRetries - attempt) := by
  intro fuel
  induction fuel with
  | zero => intro attempt hsum hlt; omega
  | succ fuel ih =>
      intro attempt hsum hlt
      by_cases heq : attempt = maxRetries - 1
      · subst heq
        simp [retryAux, hop]
        omega
      · have hrec := ih (attempt + 1) (by omega) (by omega)
        simp only [retryAux, hop, heq, if_false]
        rw [hrec]
        have hrange : List.range' attempt (maxRetries - 1 - attempt) =
            attempt :: List.range' (attempt + 1) (maxRetries - 1 - (attempt + 1)) := by
          have : maxRetries - 1 - attempt = (maxRetries - 1 - (attempt + 1)) + 1 := by omega
          rw [this, List.range'_succ]
        rw [hrange]
        simp
        omega

/-- Claim C2: when the operation fails on every invocation, retryWithBackoff
with at least one attempt invokes the operation exactly maxRetries times and
propagates the error produced by the final (maxRetries minus first) attempt,
neither swallowed nor replaced. -/
theorem c2_retry_exhaustion {A : Type} (op : Nat → Except String A)
    (err : Nat → String) (maxRetries baseDelay : Nat) (hn : 1 ≤ maxRetries)
    (hop : ∀ i, op i = .error (err i)) :
    retryWithBackoff op maxRetries baseDelay =
      { result := .error (err (maxRetries - 1)),
        delays := (List.range (maxRetries - 1)).map (fun i => baseDelay * 2 ^ i),
        calls := maxRetries } := by
  unfold retryWithBackoff
  rw [retryAux_all_fail op err maxRetries baseDelay hop maxRetries 0 (by omega) (by omega)]
  simp [List.range_eq_range']

/-- Concrete instance of claim C2: an always-failing operation with three
attempts makes exactly three calls and raises the error of the third
attempt. -/
theorem c2_witness :
    retryWithBackoff (fun i => (.error ("fail " ++ toString i) : Except String Nat)) 3 1000 =
      { result := .error "fail 2", delays := [1000, 2000], calls := 3 } := by
  have h := c2_retry_exhaustion (fun i => (.error ("fail " ++ toString i) : Except String Nat))
    (fun i => "fail " ++ toString i) 3 1000 (by omega) (fun i => rfl)
  simpa using h

/-- Little-endian decimal digits of n, with fuel (n itself always suffices
since the digit count of n never exceeds n). -/
def natDecRev : Nat → Nat → List Char
  | 0, _ => []
  | fuel + 1, n => if n = 0 then [] else Nat.digitChar (n % 10) :: natDecRev fuel (n / 10)

/-- Model of the JavaScript number-to-string conversion applied by template
literals to the natural numbers the worker interpolates (Date.now
timestamps, indices, attempt counters): the usual decimal notation. -/
def natToDecimal (n : Nat) : String :=
  if n = 0 then "0" else String.mk (natDecRev n n).reverse

/-- Numeric value of a little-endian digit list, inverse of natDecRev. -/
def decValRev : List Char → Nat
  | [] => 0
  | c :: rest => (c.toNat - 48) + 10 * decValRev rest

/-- Character code of a decimal digit character. -/
theorem digitChar_toNat (d : Nat) (hd : d < 10) : (Nat.digitChar d).toNat = d + 48 := by
  interval_cases d <;> rfl

/-- A decimal digit character is neither a dash nor a dot. -/
theorem digitChar_ne_seps (d : Nat) (hd : d < 10) :
    Nat.digitChar d ≠ '-' ∧ Nat.digitChar d ≠ '.' := by
  interval_cases d <;> exact ⟨by decide, by decide⟩

/-- decValRev recovers the number from its digits. -/
theorem decValRev_natDecRev : ∀ fuel n, n ≤ fuel → decValRev (natDecRev fuel n) = n := by
  intro fuel
  induction fuel with
  | zero => intro n hn; interval_cases n; rfl
  | succ fuel ih =>
      intro n hn
      by_cases h : n = 0
      · subst h; rfl
      · have hdiv : n / 10 ≤ fuel := by
          have h1 : n / 10 < n := Nat.div_lt_self (by omega) (by omega)
          omega
        simp only [natDecRev, h, if_false, decValRev]
        rw [ih (n / 10) hdiv, digitChar_toNat (n % 10) (Nat.mod_lt n (by omega))]
        omega

/-- Dashes and dots never occur in a decimal numeral. -/
theorem natDecRev_ne_seps : ∀ fuel n c, c ∈ natDecRev fuel n → c ≠ '-' ∧ c ≠ '.' := by
  intro fuel
  induction fuel with
  | zero => intro n c hc; simp [natDecRev] at hc
  | succ fuel ih =>
      intro n c hc
      by_cases h : n = 0
      · subst h; simp [natDecRev] at hc
      · simp only [natDecRev, h, if_false, List.mem_cons] at hc
        rcases hc with hc | hc
        · subst hc; exact digitChar_ne_seps (n % 10) (Nat.mod_lt n (by omega))
        · exact ih (n / 10) c hc

/-- The decimal printing of naturals is injective. -/
theorem natToDecimal_inj (m n : Nat) (h : natToDecimal m = natToDecimal n) : m = n := by
  unfold natToDecimal at h
  by_cases hm : m = 0 <;> by_cases hn : n = 0
  · omega
  · rw [if_pos hm, if_neg hn] at h
    have hdata : ['0'] = (natDecRev n n).reverse := congrArg String.data h
    have : natDecRev n n = ['0'] := by
      have := congrArg List.reverse hdata
      simpa using this.symm
    have hval := decValRev_natDecRev n n (le_refl n)
    rw [this] at hval
    simp [decValRev] at hval
    omega
  · rw [if_neg hm, if_pos hn] at h
    have hdata : (natDecRev m m).reverse = ['0'] := congrArg String.data h
    have : natDecRev m m = ['0'] := by
      have := congrArg List.reverse hdata
      simpa using this
    have hval := decValRev_natDecRev m m (le_refl m)
    rw [this] at hval
    simp [decValRev] at hval
    omega
  · rw [if_neg hm, if_neg hn] at h
    have hdata : (natDecRev m m).reverse = (natDecRev n n).reverse := congrArg String.data h
    have hrev : natDecRev m m = natDecRev n n := by
      have := congrArg List.reverse hdata
      simpa using this
    have h1 := decValRev_natDecRev m m (le_refl m)
    have h2 := decValRev_natDecRev n n (le_refl n)
    rw [hrev] at h1
    omega

/-- Every character of a printed natural is a decimal digit, hence never a
dash or a dot. -/
theorem natToDecimal_ne_seps (n : Nat) (c : Char) (hc : c ∈ (natToDecimal n).data) :
    c ≠ '-' ∧ c ≠ '.' := by
  unfold natToDecimal at hc
  by_cases h : n = 0
  · rw [if_pos h] at hc
    simp at hc
    subst hc
    exact ⟨by decide, by decide⟩
  · rw [if_neg h] at hc
    have : c ∈ natDecRev n n := by
      have := List.mem_reverse.mp hc
      exact this
    exact natDecRev_ne_seps n n c this

/-- Inline data of one response part from the generation API. -/
structure GenInlineData where
  data : Option String
  mimeType : Option String

/-- One part of a response candidate's content. -/
structure GenPart where
  inlineData : Option GenInlineData
  text : Option String

/-- Content of a response candidate. -/
structure GenContent where
  parts : Option (List GenPart)

/-- One candidate of a generation response. -/
structure GenCandidate where
  content : Option GenContent

/-- A generation-API response as far as the worker inspects it.  List entries
are optional because a JSON candidate can be null. -/
structure GenResponse where
  candidates : Option (List (Option GenCandidate))

/-- Scan the parts for the first one whose inline data field is truthy (a
non-empty string), as the batch handler loop does; returns that data together
with the declared MIME type. -/
def findInlineImage : List GenPart → Option (String × Option String)
  | [] => none
  | p :: rest =>
      match p.inlineData with
      | some d =>
          match d.data with
          | some s => if s = "" then findInlineImage rest else some (s, d.mimeType)
          | none => findInlineImage rest
      | none => findInlineImage rest

/-- The parts list the batch handler reads from a response: the first
candidate's content parts, or the empty list when any link of the optional
chain is missing. -/
def batchParts (resp : GenResponse) : List GenPart :=
  match resp.candidates with
  | some cands =>
      match cands.head? with
      | some (some cand) =>
          match cand.content with
          | some content => content.parts.getD []
          | none => []
      | _ => []
  | none => []

/-- Validation the batch handler performs on a response: an absent or empty
candidates list throws the no-candidates error; then the first truthy inline
datum is extracted, with MIME type defaulting to image/png when the declared
one is absent or empty; no truthy datum throws the no-image-data error. -/
def batchAttemptValidate (resp : GenResponse) : Except String (String × String) :=
  match resp.candidates with
  | none => .error "No candidates returned"
  | some cands =>
      if cands.length = 0 then .error "No candidates returned"
      else
        match findInlineImage (batchParts resp) with
        | some (data, declared) =>
            .ok (data,
              match declared with
              | some m => if m = "" then "image/png" else m
              | none => "image/png")
        | none => .error "No image data in response"

/-- Extension chosen by the batch handler from the MIME type: png when the
type mentions png, jpg when it mentions jpeg or jpg, else png. -/
def batchExt (mime : String) : String :=
  if jsIncludesStr mime "png" then "png"
  else if jsIncludesStr mime "jpeg" || jsIncludesStr mime "jpg" then "jpg"
  else "png"

/-- R2 key written by the batch handler for item i. -/
def batchKey (ts i : Nat) (rand ext : String) : String :=
  "generated-" ++ natToDecimal ts ++ "-" ++ natToDecimal i ++ "-" ++ rand ++ "." ++ ext

/-- Public base URL under which stored objects are served. -/
def publicUrlBase : String := "https://images.iwasthere.today/"

/-- One whole successful-response processing step of the batch handler for
item i: validate the response, decode the image (atob can still fail), store
under a fresh key and return the public URL. -/
def batchAttemptOnce (resp : GenResponse) (i ts : Nat) (rand : String) :
    Except String String :=
  match batchAttemptValidate resp with
  | .error e => .error e
  | .ok (data, mime) =>
      match base64ToArrayBuffer data with
      | none => .error "InvalidCharacterError"
      | some _ => .ok (publicUrlBase ++ batchKey ts i rand (batchExt mime))

/-- Observable outcome of one outer batch attempt: its result, the delays of
the inner retry wrapper, and the number of upstream API calls it made. -/
structure StepResult where
  result : Except String String
  delays : List Nat
  calls : Nat

/-- One outer attempt of the batch handler for item i: the upstream call is
wrapped in retryWithBackoff with its default settings (three attempts, base
delay one thousand); the api argument maps the item's global upstream-call
counter to that call's outcome, and tsrand supplies the timestamp and random
suffix drawn on the attempt. -/
def geminiBatchStep (api : Nat → Except String GenResponse) (i : Nat)
    (tsrand : Nat → Nat × String) (attempt callStart : Nat) : StepResult :=
  let r := retryWithBackoff (fun k => api (callStart + k)) 3 1000
  match r.result with
  | .error e => { result := .error e, delays := r.delays, calls := r.calls }
  | .ok resp =>
      { result := batchAttemptOnce resp i (tsrand attempt).1 (tsrand attempt).2,
        delays := r.delays, calls := r.calls }

/-- Final per-item record of the batch handler: the url slot, the error slot,
the delays incurred while processing the item and the number of upstream
calls it made. -/
structure ItemState where
  url : Option String
  err : Option String
  delays : List Nat
  calls : Nat

/-- The error message recorded for a failed attempt. -/
def attemptMsg (attempt maxAttempts : Nat) (e : String) : String :=
  "Attempt " ++ natToDecimal attempt ++ "/" ++ natToDecimal maxAttempts ++ " failed: " ++ e

/-- The while loop of the batch handler for one item: attempts are counted
from one; a success stores the url and clears the error slot and the loop
stops; a failure records the attempt message and, when more attempts remain,
waits five hundred times the attempt number before the next one.  The fuel is
the number of loop iterations left. -/
def runItemAux (maxAttempts : Nat) (step : Nat → Nat → StepResult) :
    Nat → Nat → Nat → Option String → ItemState
  | 0, _, _, curErr => { url := none, err := curErr, delays := [], calls := 0 }
  | fuel + 1, done, callBase, curErr =>
    if done < maxAttempts then
      let attempt := done + 1
      let s := step attempt callBase
      match s.result with
      | .ok u => { url := some u, err := none, delays := s.delays, calls := s.calls }
      | .error e =>
          let msg := attemptMsg attempt maxAttempts e
          if attempt < maxAttempts then
            let rest := runItemAux maxAttempts step fuel attempt (callBase + s.calls) (some msg)
            { url := rest.url, err := rest.err,
              delays := s.delays ++ 500 * attempt :: rest.delays,
              calls := s.calls + rest.calls }
          else { url := none, err := some msg, delays := s.delays, calls := s.calls }
    else { url := none, err := curErr, delays := [], calls := 0 }

/-- Run the per-item while loop from its start. -/
def runItem (maxAttempts : Nat) (step : Nat → Nat → StepResult) : ItemState :=
  runItemAux maxAttempts step maxAttempts 0 0 none

/-- The per-item prompt guard of the batch handler: the prompt must be a
string whose trimmed form is non-empty. -/
def promptValid (p : JSValue) : Bool :=
  match p with
  | .jsStr s => !(jsTrim s = "")
  | _ => false

/-- The record stored for an invalid prompt: an error, no url, no upstream
call, no delay. -/
def invalidItemState (i : Nat) : ItemState :=
  { url := none, err := some ("Invalid prompt at index " ++ natToDecimal i),
    delays := [], calls := 0 }

/-- Sequential processing of the prompts: each item is handled independently
by its own while loop (or marked invalid), and one item's exhaustion never
stops later items.  The step function is indexed by the item first. -/
def runBatchItems (maxAttempts : Nat) (prompts : List JSValue)
    (step : Nat → Nat → Nat → StepResult) : List ItemState :=
  (List.range prompts.length).map (fun i =>
    match prompts[i]? with
    | some p => if promptValid p then runItem maxAttempts (step i) else invalidItemState i
    | none => invalidItemState i)

/-- The code-faithful step for item i of the batch handler. -/
def runBatchItemsApi (maxAttempts : Nat) (prompts : List JSValue)
    (api : Nat → Nat → Except String GenResponse)
    (tsrand : Nat → Nat → Nat × String) : List ItemState :=
  runBatchItems maxAttempts prompts (fun i => geminiBatchStep (api i) i (tsrand i))

/-- The effective per-item attempt budget: the requested value (absent means
three) clamped by Math.max and Math.min into one to five. -/
def effectiveMaxAttempts (requested : Option Int) : Int :=
  max 1 (min 5 (requested.getD 3))

/-- The filter with the Boolean coercion the batch handler applies to the url
slots: keep the values that are present and non-empty. -/
def jsFilterTruthy (l : List (Option String)) : List String :=
  l.filterMap (fun o =>
    match o with
    | some s => if s = "" then none else some s
    | none => none)

/-- The three response shapes of the batch endpoint: a 400 for a missing or
empty prompts array, a 200 with all urls, or a 502 carrying the message, the
non-null urls and the per-item error slots. -/
inductive BatchHttp where
  | badRequest (message : String)
  | okAll (urls : List String)
  | failedSome (message : String) (urls : List String) (errors : List (Option String))

/-- The message of the 502 branch. -/
def batchMessage (successful total maxAttempts : Nat) : String :=
  "Generated " ++ natToDecimal successful ++ "/" ++ natToDecimal total ++
    " images after " ++ natToDecimal maxAttempts ++ " attempts per prompt"

/-- Response assembly of the batch handler: count the truthy urls; when every
prompt has one return the success body (all url slots are then non-null, so
the filtered list is the full list), otherwise the 502 body with the filtered
urls and the parallel error list. -/
def batchResponseOf (maxAttempts : Nat) (prompts : List JSValue)
    (items : List ItemState) : BatchHttp :=
  let urls := items.map (fun st => st.url)
  let successful := (jsFilterTruthy urls).length
  if successful = prompts.length then .okAll (jsFilterTruthy urls)
  else
    .failedSome (batchMessage successful prompts.length maxAttempts)
      (jsFilterTruthy urls) (items.map (fun st => st.err))

/-- The batch endpoint after content-type and JSON validation: an absent or
empty prompts array is a 400; otherwise the items are processed sequentially
with the clamped attempt budget and the response is assembled. -/
def handleGenerateBatch (prompts : List JSValue) (requested : Option Int)
    (api : Nat → Nat → Except String GenResponse)
    (tsrand : Nat → Nat → Nat × String) : BatchHttp :=
  if prompts.length = 0 then .badRequest "Body must include non-empty prompts array"
  else
    let maxAttempts := (effectiveMaxAttempts requested).toNat
    batchResponseOf maxAttempts prompts (runBatchItemsApi maxAttempts prompts api tsrand)

/-- Expected delay trace of an item whose every outer attempt fails: the
inner-retry delays ds of each attempt from lo on, followed by the linear
outer delay of five hundred times the attempt number whenever the attempt is
not the last. -/
def failTraceAux (ds : List Nat) (maxAttempts : Nat) : Nat → Nat → List Nat
  | _, 0 => []
  | lo, count + 1 =>
      ds ++ (if lo < maxAttempts then [500 * lo] else []) ++
        failTraceAux ds maxAttempts (lo + 1) count

/-- With no inner delays the failure trace is exactly the linear outer
backoff. -/
theorem failTraceAux_nil (maxAttempts : Nat) :
    ∀ count lo, lo + count = maxAttempts + 1 →
      failTraceAux [] maxAttempts lo count =
        (List.range' lo (count - 1)).map (fun a => 500 * a) := by
  intro count
  induction count with
  | zero => intro lo hlo; simp [failTraceAux]
  | succ count ih =>
      intro lo hlo
      by_cases hlt : lo < maxAttempts
      · have hcount : 1 ≤ count := by omega
        have := ih (lo + 1) (by omega)
        simp only [failTraceAux, hlt, if_true, List.nil_append, this]
        have hc : count = (count - 1) + 1 := by omega
        have hr : List.range' lo count = lo :: List.range' (lo + 1) (count - 1) := by
          conv_lhs => rw [hc]
          rw [List.range'_succ]
        simp only [Nat.add_sub_cancel, hr]
        simp
      · have hlo2 : lo = maxAttempts := by omega
        have hc0 : count = 0 := by omega
        subst hc0
        simp [failTraceAux, hlt]

/-- Run of the per-item loop when every outer attempt fails with the same
inner trace and call count: the url slot stays empty, the recorded error is
the final attempt's message, the delays follow failTraceAux and the calls
accumulate. -/
theorem runItemAux_const_fail (maxAttempts : Nat) (step : Nat → Nat → StepResult)
    (errf : Nat → Nat → String) (ds : List Nat) (nc : Nat)
    (hstep : ∀ a c, step a c = { result := .error (errf a c), delays := ds, calls := nc }) :
    ∀ fuel done callBase curErr, done + fuel = maxAttempts → done < maxAttempts →
      runItemAux maxAttempts step fuel done callBase curErr =
        { url := none,
          err := some (attemptMsg maxAttempts maxAttempts
            (errf maxAttempts (callBase + nc * (maxAttempts - 1 - done)))),
          delays := failTraceAux ds maxAttempts (done + 1) (maxAttempts - done),
          calls := nc * (maxAttempts - done) } := by
  intro fuel
  induction fuel with
  | zero => intro done callBase curErr hsum hlt; omega
  | succ fuel ih =>
      intro done callBase curErr hsum hlt
      by_cases hfin : done + 1 < maxAttempts
      · have hrec := ih (done + 1) (callBase + nc)
          (some (attemptMsg (done + 1) maxAttempts (errf (done + 1) callBase)))
          (by omega) (by omega)
        simp only [runItemAux, hlt, if_true, hstep, hfin, hrec]
        have harg : callBase + nc + nc * (maxAttempts - 1 - (done + 1)) =
            callBase + nc * (maxAttempts - 1 - done) := by
          have hx : maxAttempts - 1 - done = (maxAttempts - 1 - (done + 1)) + 1 := by omega
          rw [hx, Nat.mul_succ]
          omega
        have hcalls : nc + nc * (maxAttempts - (done + 1)) = nc * (maxAttempts - done) := by
          have hx : maxAttempts - done = (maxAttempts - (done + 1)) + 1 := by omega
          rw [hx, Nat.mul_succ]
          omega
        have htrace : ds ++ 500 * (done + 1) :: failTraceAux ds maxAttempts (done + 2)
              (maxAttempts - (done + 1)) =
            failTraceAux ds maxAttempts (done + 1) (maxAttempts - done) := by
          have hx : maxAttempts - done = (maxAttempts - (done + 1)) + 1 := by omega
          rw [hx]
          simp [failTraceAux, hfin]
        rw [harg, hcalls, htrace]
      · have heq : done + 1 = maxAttempts := by omega
        simp only [runItemAux, hlt, if_true, hstep, hfin, if_false]
        have hsub : maxAttempts - 1 - done = 0 := by omega
        have hsub2 : maxAttempts - done = 1 := by omega
        rw [heq, hsub, hsub2]
        simp [failTraceAux, Nat.lt_irrefl]

/-- When the upstream API throws on every call, one outer batch attempt runs
the inner retry wrapper to exhaustion: three upstream calls, inner delays of
one thousand and two thousand, and the error of the third call. -/
theorem geminiBatchStep_all_fail (aerr : Nat → String) (i : Nat)
    (tsrand : Nat → Nat × String) (attempt callStart : Nat) :
    geminiBatchStep (fun c => .error (aerr c)) i tsrand attempt callStart =
      { result := .error (aerr (callStart + 2)), delays := [1000, 2000], calls := 3 } := by
  unfold geminiBatchStep
  have h := retryAux_all_fail (A := GenResponse) (fun k => .error (aerr (callStart + k)))
    (fun k => aerr (callStart + k)) 3 1000 (fun k => rfl) 3 0 (by omega) (by omega)
  unfold retryWithBackoff
  rw [h]
  simp [List.range']

/-- A successful outer batch attempt always returns a url under the public
base. -/
theorem geminiBatchStep_ok_shape (api : Nat → Except String GenResponse) (i : Nat)
    (tsrand : Nat → Nat × String) (attempt callStart : Nat) (u : String)
    (h : (geminiBatchStep api i tsrand attempt callStart).result = .ok u) :
    ∃ tail, u = publicUrlBase ++ tail := by
  unfold geminiBatchStep at h
  dsimp only at h
  cases hr : (retryWithBackoff (fun k => api (callStart + k)) 3 1000).result with
  | error e => rw [hr] at h; exact absurd h (by simp)
  | ok resp =>
      rw [hr] at h
      dsimp only at h
      unfold batchAttemptOnce at h
      cases hv : batchAttemptValidate resp with
      | error e => rw [hv] at h; exact absurd h (by simp)
      | ok dm =>
          obtain ⟨data, mime⟩ := dm
          rw [hv] at h
          dsimp only at h
          cases hb : base64ToArrayBuffer data with
          | none =>
              rw [hb] at h
              exact absurd h (by simp)
          | some _ =>
              rw [hb] at h
              simp at h
              exact ⟨_, h.symm⟩

/-- Any url the per-item loop records comes from a successful step. -/
theorem runItemAux_url_shape (maxAttempts : Nat) (step : Nat → Nat → StepResult)
    (hstep : ∀ a c u, (step a c).result = .ok u → ∃ tail, u = publicUrlBase ++ tail) :
    ∀ fuel done callBase curErr u,
      (runItemAux maxAttempts step fuel done callBase curErr).url = some u →
        ∃ tail, u = publicUrlBase ++ tail := by
  intro fuel
  induction fuel with
  | zero => intro done callBase curErr u hu; simp [runItemAux] at hu
  | succ fuel ih =>
      intro done callBase curErr u hu
      by_cases hlt : done < maxAttempts
      · simp only [runItemAux, hlt, if_true] at hu
        cases hres : (step (done + 1) callBase).result with
        | ok v =>
            rw [hres] at hu
            simp at hu
            subst hu
            exact hstep (done + 1) callBase _ hres
        | error e =>
            rw [hres] at hu
            by_cases hfin : done + 1 < maxAttempts
            · simp only [hfin, if_true] at hu
              exact ih (done + 1) _ _ u hu
            · simp only [hfin, if_false] at hu
              exact absurd hu (by simp)
      · simp only [runItemAux, hlt, if_false] at hu
        exact absurd hu (by simp)

/-- The public urls are never empty strings. -/
theorem publicUrl_ne_empty (tail : String) : publicUrlBase ++ tail ≠ "" := by
  intro h
  have hd : publicUrlBase.data ++ tail.data = [] := congrArg String.data h
  have hnil := List.append_eq_nil.mp hd
  exact absurd hnil.1 (by decide)

/-- The item list has one entry per prompt. -/
theorem runBatchItems_length (maxAttempts : Nat) (prompts : List JSValue)
    (step : Nat → Nat → Nat → StepResult) :
    (runBatchItems maxAttempts prompts step).length = prompts.length := by
  simp [runBatchItems]

/-- Entry i of the item list, valid-prompt case: the result of item i's own
loop, independent of every other item. -/
theorem runBatchItems_get_valid (maxAttempts : Nat) (prompts : List JSValue)
    (step : Nat → Nat → Nat → StepResult) (i : Nat) (p : JSValue)
    (hp : prompts[i]? = some p) (hv : promptValid p = true) :
    (runBatchItems maxAttempts prompts step)[i]? = some (runItem maxAttempts (step i)) := by
  have hi : i < prompts.length := by
    by_contra hge
    rw [List.getElem?_eq_none (by omega)] at hp
    exact Option.noConfusion hp
  simp [runBatchItems, List.getElem?_map, List.getElem?_range, hi, hp, hv]

/-- Entry i of the item list, invalid-prompt case: the invalid-prompt record,
with no upstream call. -/
theorem runBatchItems_get_invalid (maxAttempts : Nat) (prompts : List JSValue)
    (step : Nat → Nat → Nat → StepResult) (i : Nat) (p : JSValue)
    (hp : prompts[i]? = some p) (hv : promptValid p = false) :
    (runBatchItems maxAttempts prompts step)[i]? = some (invalidItemState i) := by
  have hi : i < prompts.length := by
    by_contra hge
    rw [List.getElem?_eq_none (by omega)] at hp
    exact Option.noConfusion hp
  simp [runBatchItems, List.getElem?_map, List.getElem?_range, hi, hp, hv]

/-- The truthy filter keeps every slot exactly when every slot is a non-empty
string. -/
theorem jsFilterTruthy_length_eq_iff (l : List (Option String)) :
    (jsFilterTruthy l).length = l.length ↔
      ∀ o ∈ l, ∃ s, o = some s ∧ s ≠ "" := by
  induction l with
  | nil => simp [jsFilterTruthy]
  | cons o rest ih =>
      have hle : (jsFilterTruthy rest).length ≤ rest.length :=
        List.length_filterMap_le _ _
      cases o with
      | none =>
          constructor
          · intro h
            exfalso
            have h2 : (jsFilterTruthy rest).length = rest.length + 1 := by
              simpa [jsFilterTruthy, List.filterMap_cons] using h
            omega
          · intro h
            exfalso
            obtain ⟨s, hs, _⟩ := h none (by simp)
            exact Option.noConfusion hs
      | some s =>
          by_cases hs : s = ""
          · subst hs
            constructor
            · intro h
              exfalso
              have h2 : (jsFilterTruthy rest).length = rest.length + 1 := by
                simpa [jsFilterTruthy, List.filterMap_cons] using h
              omega
            · intro h
              exfalso
              obtain ⟨t, ht, hne⟩ := h (some "") (by simp)
              have : "" = t := by injection ht
              exact hne this.symm
          · have hstep : (jsFilterTruthy (some s :: rest)).length =
                (jsFilterTruthy rest).length + 1 := by
              simp [jsFilterTruthy, List.filterMap_cons, hs]
            constructor
            · intro h
              intro o ho
              rcases List.mem_cons.mp ho with ho | ho
              · exact ⟨s, by rw [ho], hs⟩
              · refine (ih.mp ?_) o ho
                rw [hstep] at h
                simp only [List.length_cons] at h
                omega
            · intro h
              have hrest := ih.mpr (fun o ho => h o (List.mem_cons_of_mem _ ho))
              rw [hstep, hrest]
              simp

/-- Urls recorded by the code-faithful batch items are never empty strings. -/
theorem runBatchItemsApi_url_ne_empty (maxAttempts : Nat) (prompts : List JSValue)
    (api : Nat → Nat → Except String GenResponse) (tsrand : Nat → Nat → Nat × String) :
    ∀ st ∈ runBatchItemsApi maxAttempts prompts api tsrand,
      ∀ u, st.url = some u → u ≠ "" := by
  intro st hst u hu
  unfold runBatchItemsApi runBatchItems at hst
  obtain ⟨i, hi, hfi⟩ := List.mem_map.mp hst
  cases hp : prompts[i]? with
  | none =>
      rw [hp] at hfi
      rw [← hfi] at hu
      exact absurd hu (by simp [invalidItemState])
  | some p =>
      rw [hp] at hfi
      dsimp only at hfi
      by_cases hv : promptValid p = true
      · rw [if_pos hv] at hfi
        rw [← hfi] at hu
        have hshape := runItemAux_url_shape maxAttempts
          (geminiBatchStep (api i) i (tsrand i))
          (fun a c v hok => geminiBatchStep_ok_shape (api i) i (tsrand i) a c v hok)
          maxAttempts 0 0 none u hu
        obtain ⟨tail, htail⟩ := hshape
        rw [htail]
        exact publicUrl_ne_empty tail
      · rw [if_neg hv] at hfi
        rw [← hfi] at hu
        exact absurd hu (by simp [invalidItemState])

/-- The success condition of the batch response equals per-item success. -/
theorem batch_cond_iff (maxAttempts : Nat) (prompts : List JSValue)
    (api : Nat → Nat → Except String GenResponse) (tsrand : Nat → Nat → Nat × String) :
    (jsFilterTruthy ((runBatchItemsApi maxAttempts prompts api tsrand).map
        (fun st => st.url))).length = prompts.length ↔
      ∀ st ∈ runBatchItemsApi maxAttempts prompts api tsrand, st.url.isSome = true := by
  have hlen : (runBatchItemsApi maxAttempts prompts api tsrand).length = prompts.length :=
    runBatchItems_length maxAttempts prompts _
  have hmaplen : ((runBatchItemsApi maxAttempts prompts api tsrand).map
      (fun st => st.url)).length = prompts.length := by
    rw [List.length_map]; exact hlen
  rw [← hmaplen, jsFilterTruthy_length_eq_iff]
  constructor
  · intro h st hst
    obtain ⟨s, hs, _⟩ := h st.url (List.mem_map.mpr ⟨st, hst, rfl⟩)
    rw [hs]
    rfl
  · intro h o ho
    obtain ⟨st, hst, hsto⟩ := List.mem_map.mp ho
    have hsome := h st hst
    cases hu : st.url with
    | none => rw [hu] at hsome; exact absurd hsome (by simp)
    | some u =>
        refine ⟨u, by rw [← hsto, hu], ?_⟩
        exact runBatchItemsApi_url_ne_empty maxAttempts prompts api tsrand st hst u hu

/-- Claim C6: the batch endpoint returns the 200 success body exactly when
every prompt's item recorded a url; otherwise it returns the 502 body whose
urls are the non-null urls in order and whose errors are the parallel
per-item last-seen error slots, and some item indeed recorded no url. -/
theorem c6_batch_response (prompts : List JSValue) (requested : Option Int)
    (api : Nat → Nat → Except String GenResponse) (tsrand : Nat → Nat → Nat × String)
    (hne : prompts ≠ []) :
    ((∃ us, handleGenerateBatch prompts requested api tsrand = .okAll us) ↔
        ∀ st ∈ runBatchItemsApi (effectiveMaxAttempts requested).toNat prompts api tsrand,
          st.url.isSome = true) ∧
    (∀ m us es, handleGenerateBatch prompts requested api tsrand = .failedSome m us es →
        us = jsFilterTruthy ((runBatchItemsApi (effectiveMaxAttempts requested).toNat
            prompts api tsrand).map (fun st => st.url)) ∧
        es = (runBatchItemsApi (effectiveMaxAttempts requested).toNat
            prompts api tsrand).map (fun st => st.err) ∧
        ∃ st ∈ runBatchItemsApi (effectiveMaxAttempts requested).toNat prompts api tsrand,
          st.url = none) := by
  have hlen0 : prompts.length ≠ 0 := by
    intro h
    exact hne (List.eq_nil_of_length_eq_zero h)
  have hunfold : handleGenerateBatch prompts requested api tsrand =
      batchResponseOf (effectiveMaxAttempts requested).toNat prompts
        (runBatchItemsApi (effectiveMaxAttempts requested).toNat prompts api tsrand) := by
    unfold handleGenerateBatch
    rw [if_neg hlen0]
  have hcond := batch_cond_iff (effectiveMaxAttempts requested).toNat prompts api tsrand
  constructor
  · constructor
    · rintro ⟨us, hus⟩
      rw [hunfold] at hus
      unfold batchResponseOf at hus
      by_cases hc : (jsFilterTruthy ((runBatchItemsApi (effectiveMaxAttempts requested).toNat
          prompts api tsrand).map (fun st => st.url))).length = prompts.length
      · exact hcond.mp hc
      · rw [if_neg hc] at hus
        exact absurd hus (by simp)
    · intro h
      have hc := hcond.mpr h
      rw [hunfold]
      unfold batchResponseOf
      rw [if_pos hc]
      exact ⟨_, rfl⟩
  · intro m us es heq
    rw [hunfold] at heq
    unfold batchResponseOf at heq
    by_cases hc : (jsFilterTruthy ((runBatchItemsApi (effectiveMaxAttempts requested).toNat
        prompts api tsrand).map (fun st => st.url))).length = prompts.length
    · rw [if_pos hc] at heq
      exact absurd heq (by simp)
    · rw [if_neg hc] at heq
      injection heq with h1 h2 h3
      refine ⟨h2.symm, h3.symm, ?_⟩
      have hnall : ¬ ∀ st ∈ runBatchItemsApi (effectiveMaxAttempts requested).toNat
          prompts api tsrand, st.url.isSome = true := fun hall => hc (hcond.mpr hall)
      push_neg at hnall
      obtain ⟨st, hst, hnot⟩ := hnall
      refine ⟨st, hst, ?_⟩
      cases hu : st.url with
      | none => rfl
      | some u => rw [hu] at hnot; exact absurd rfl hnot

/-- Sample upstream response that carries an inline image. -/
def respOkPart : GenPart :=
  { inlineData := some { data := some "QUJD", mimeType := some "image/png" }, text := none }

/-- Sample successful generation response. -/
def respOkSample : GenResponse :=
  { candidates := some [some { content := some { parts := some [respOkPart] } }] }

/-- Concrete instance of claim C6: with an upstream that always succeeds, a
one-prompt batch returns the 200 body. -/
theorem c6_witness :
    ∃ us, handleGenerateBatch [.jsStr "a cat"] none
        (fun _ _ => .ok respOkSample) (fun _ _ => (9, "zzzzzz")) = .okAll us :=
  (c6_batch_response [.jsStr "a cat"] none (fun _ _ => .ok respOkSample)
      (fun _ _ => (9, "zzzzzz")) (List.cons_ne_nil _ _)).1.mpr (by decide)

/-- Claim C5: the effective per-item attempt budget is the request value
clamped into one to five with default three; an invalid prompt is recorded
with its error message and zero upstream calls; a valid prompt's item is
exactly the outcome of its own loop, independent of every other item; and an
item whose outer attempts all fail (with no inner delays) waits five hundred
times n between failed attempt n and attempt n plus one. -/
theorem c5_batch_item_policy :
    (∀ requested : Option Int,
        1 ≤ effectiveMaxAttempts requested ∧ effectiveMaxAttempts requested ≤ 5 ∧
        effectiveMaxAttempts none = 3 ∧
        (∀ m : Int, 1 ≤ m → m ≤ 5 → effectiveMaxAttempts (some m) = m)) ∧
    (∀ (maxAttempts : Nat) (prompts : List JSValue) (step : Nat → Nat → Nat → StepResult)
        (i : Nat) (p : JSValue), prompts[i]? = some p → promptValid p = false →
        (runBatchItems maxAttempts prompts step)[i]? = some (invalidItemState i) ∧
        (invalidItemState i).calls = 0 ∧
        (invalidItemState i).err = some ("Invalid prompt at index " ++ natToDecimal i)) ∧
    (∀ (maxAttempts : Nat) (prompts : List JSValue) (step : Nat → Nat → Nat → StepResult)
        (i : Nat) (p : JSValue), prompts[i]? = some p → promptValid p = true →
        (runBatchItems maxAttempts prompts step)[i]? =
          some (runItem maxAttempts (step i))) ∧
    (∀ (maxAttempts : Nat) (step : Nat → Nat → StepResult) (errf : Nat → Nat → String),
        1 ≤ maxAttempts →
        (∀ a c, step a c = { result := .error (errf a c), delays := [], calls := 1 }) →
        (runItem maxAttempts step).delays =
          (List.range' 1 (maxAttempts - 1)).map (fun n => 500 * n)) := by
  refine ⟨?_, ?_, ?_, ?_⟩
  · intro requested
    refine ⟨?_, ?_, ?_, ?_⟩
    · cases requested with
      | none => decide
      | some m => simp only [effectiveMaxAttempts, Option.getD]; omega
    · cases requested with
      | none => decide
      | some m => simp only [effectiveMaxAttempts, Option.getD]; omega
    · decide
    · intro m h1 h5
      simp only [effectiveMaxAttempts, Option.getD]
      omega
  · intro maxAttempts prompts step i p hp hv
    exact ⟨runBatchItems_get_invalid maxAttempts prompts step i p hp hv, rfl, rfl⟩
  · intro maxAttempts prompts step i p hp hv
    exact runBatchItems_get_valid maxAttempts prompts step i p hp hv
  · intro maxAttempts step errf hmax hstep
    unfold runItem
    rw [runItemAux_const_fail maxAttempts step errf [] 1 hstep maxAttempts 0 0 none
      (by omega) (by omega)]
    simp only [Nat.zero_add, Nat.sub_zero]
    rw [failTraceAux_nil maxAttempts maxAttempts 1 (by omega)]

/-- Concrete instances of claim C5: a requested budget of two stands; the
empty prompt of the spec example is marked invalid with zero upstream calls;
and with two attempts a failing item incurs the single outer delay of five
hundred. -/
theorem c5_witness :
    effectiveMaxAttempts (some 2) = 2 ∧
    (runBatchItems 2 [.jsStr "a cat", .jsStr "", .jsStr "a dog"]
        (fun _ _ _ => { result := .error "down", delays := [], calls := 1 }))[1]? =
      some (invalidItemState 1) ∧
    (runItem 2 (fun _ _ => { result := .error "down", delays := [], calls := 1 })).delays =
      (List.range' 1 1).map (fun n => 500 * n) :=
  ⟨(c5_batch_item_policy.1 (some 2)).2.2.2 2 (by omega) (by omega),
    ((c5_batch_item_policy.2.1 2 [.jsStr "a cat", .jsStr "", .jsStr "a dog"]
      (fun _ _ _ => { result := .error "down", delays := [], calls := 1 })
      1 (.jsStr "") rfl rfl).1),
    c5_batch_item_policy.2.2.2 2 (fun _ _ => { result := .error "down", delays := [], calls := 1 })
      (fun _ _ => "down") (by omega) (fun a c => rfl)⟩

/-- The retry loop never makes more calls than it has fuel. -/
theorem retryAux_calls_le {A : Type} (op : Nat → Except String A)
    (maxRetries baseDelay : Nat) :
    ∀ fuel attempt, (retryAux op maxRetries baseDelay fuel attempt).2.2 ≤ fuel := by
  intro fuel
  induction fuel with
  | zero => intro attempt; simp [retryAux]
  | succ fuel ih =>
      intro attempt
      unfold retryAux
      cases op attempt with
      | ok a => simp
      | error e =>
          by_cases hfin : attempt = maxRetries - 1
          · simp [hfin]
          · simp only [hfin, if_false]
            have := ih (attempt + 1)
            simpa using Nat.add_le_add_right this 1

/-- One outer batch attempt makes at most three upstream calls. -/
theorem geminiBatchStep_calls_le (api : Nat → Except String GenResponse) (i : Nat)
    (tsrand : Nat → Nat × String) (attempt callStart : Nat) :
    (geminiBatchStep api i tsrand attempt callStart).calls ≤ 3 := by
  unfold geminiBatchStep retryWithBackoff
  have h := retryAux_calls_le (fun k => api (callStart + k)) 3 1000 3 0
  cases hr : (retryAux (fun k => api (callStart + k)) 3 1000 3 0).1 with
  | error e => simpa [hr] using h
  | ok resp => simpa [hr] using h

/-- The item loop makes at most its per-attempt bound times its fuel calls. -/
theorem runItemAux_calls_le (maxAttempts : Nat) (step : Nat → Nat → StepResult) (nc : Nat)
    (hstep : ∀ a c, (step a c).calls ≤ nc) :
    ∀ fuel done callBase curErr,
      (runItemAux maxAttempts step fuel done callBase curErr).calls ≤ nc * fuel := by
  intro fuel
  induction fuel with
  | zero => intro done callBase curErr; simp [runItemAux]
  | succ fuel ih =>
      intro done callBase curErr
      unfold runItemAux
      by_cases hlt : done < maxAttempts
      · simp only [hlt, if_true]
        split
        · dsimp only
          have := hstep (done + 1) callBase
          rw [Nat.mul_succ]
          omega
        · rename_i e _heq
          by_cases hfin : done + 1 < maxAttempts
          · simp only [hfin, if_true]
            have h1 := hstep (done + 1) callBase
            have h2 := ih (done + 1) (callBase + (step (done + 1) callBase).calls)
              (some (attemptMsg (done + 1) maxAttempts e))
            rw [Nat.mul_succ]
            omega
          · simp only [hfin, if_false]
            have := hstep (done + 1) callBase
            rw [Nat.mul_succ]
            omega
      · simp [hlt]

/-- Claim C10: each outer per-item attempt of the batch handler wraps its
upstream call in retryWithBackoff with the default settings, so the two
backoff policies compose: an item with effective budget m issues at most
three times m upstream calls, and when the upstream throws on every call it
issues exactly three times m calls, with the exponential inner delays of one
thousand and two thousand interleaved between the linear outer delays. -/
theorem c10_nested_retry :
    (∀ (m i : Nat) (api : Nat → Except String GenResponse) (tsrand : Nat → Nat × String),
        (runItem m (geminiBatchStep api i tsrand)).calls ≤ 3 * m) ∧
    (∀ (m i : Nat) (aerr : Nat → String) (tsrand : Nat → Nat × String), 1 ≤ m →
        runItem m (geminiBatchStep (fun c => .error (aerr c)) i tsrand) =
          { url := none,
            err := some (attemptMsg m m (aerr (3 * (m - 1) + 2))),
            delays := failTraceAux [1000, 2000] m 1 m,
            calls := 3 * m }) := by
  constructor
  · intro m i api tsrand
    exact runItemAux_calls_le m (geminiBatchStep api i tsrand) 3
      (fun a c => geminiBatchStep_calls_le api i tsrand a c) m 0 0 none
  · intro m i aerr tsrand hm
    unfold runItem
    rw [runItemAux_const_fail m (geminiBatchStep (fun c => .error (aerr c)) i tsrand)
      (fun a c => aerr (c + 2)) [1000, 2000] 3
      (fun a c => geminiBatchStep_all_fail aerr i tsrand a c) m 0 0 none
      (by omega) (by omega)]
    simp only [Nat.zero_add, Nat.sub_zero]

/-- Concrete instance of claim C10: budget two with an upstream that always
throws makes six upstream calls and the delay trace interleaves the inner
exponential pairs with the outer linear delay. -/
theorem c10_witness :
    runItem 2 (geminiBatchStep (fun _ => .error "down") 0 (fun _ => (1, "rrrrrr"))) =
      { url := none, err := some "Attempt 2/2 failed: down",
        delays := [1000, 2000, 500, 1000, 2000], calls := 6 } :=
  (c10_nested_retry.2 2 0 (fun _ => "down") (fun _ => (1, "rrrrrr")) (by omega)).trans (by rfl)

/-- Validation the single-generation handler performs on an upstream
response, throwing the exact messages of the source: missing or empty
candidates, a null first candidate, a candidate without content, content
without parts, and finally the scan for a truthy inline datum whose absence
throws the no-inline-content error.  On success the image data is returned
with its MIME type, defaulting to image/png. -/
def validateSingleResponse (resp : GenResponse) : Except String (String × String) :=
  match resp.candidates with
  | none => .error "No response generated from Gemini API - no candidates returned"
  | some cands =>
      if cands.length = 0 then
        .error "No response generated from Gemini API - no candidates returned"
      else
        match cands.head? with
        | some (some cand) =>
            match cand.content with
            | none => .error "Invalid response structure from Gemini API - no content in candidate"
            | some content =>
                match content.parts with
                | none =>
                    .error "Invalid response structure from Gemini API - no parts in content"
                | some parts =>
                    if parts.length = 0 then
                      .error "Invalid response structure from Gemini API - no parts in content"
                    else
                      match findInlineImage parts with
                      | some (data, declared) => .ok (data, jsOrD declared "image/png")
                      | none => .error "No inline image content generated in response"
        | _ => .error "Invalid response structure from Gemini API - candidate is null"

/-- The catch-block classifier of the single-generation handler: map the
error message by substring tests to a status code and a generic user-facing
message; an unmatched message keeps status 500 and is surfaced raw. -/
def classifyGenerationError (msg : String) : Nat × String :=
  if jsIncludesStr msg "No response generated" then
    (503, "The AI service did not generate any content. Please try again.")
  else if jsIncludesStr msg "Invalid response structure" then
    (502, "The AI service returned an unexpected response format. Please try again.")
  else if jsIncludesStr msg "No inline image content" then
    (422, "The AI service could not generate content. Please try with a different image or prompt.")
  else if jsIncludesStr msg "fetch" then
    (400, "Failed to fetch the uploaded image. Please check the image URL.")
  else (500, msg)

/-- The JSON error body of the single-generation handler: generic message,
raw message as details, the current time stamp, and the request metadata
(language, whether a date and a prompt were present). -/
structure GenErrorResponse where
  status : Nat
  error : String
  details : String
  timestamp : String
  reqLanguage : String
  reqHasDate : Bool
  reqHasPrompt : Bool

/-- Assemble the error response for a thrown message. -/
def generateErrorResponse (msg now lang : String) (hasDate hasPrompt : Bool) :
    GenErrorResponse :=
  { status := (classifyGenerationError msg).1,
    error := (classifyGenerationError msg).2,
    details := msg, timestamp := now,
    reqLanguage := lang, reqHasDate := hasDate, reqHasPrompt := hasPrompt }

/-- The single-generation handler from the upstream response on: a
validation failure is converted by the catch block into the structured error
response. -/
def generateOutcome (resp : GenResponse) (now lang : String) (hasDate hasPrompt : Bool) :
    Except GenErrorResponse (String × String) :=
  match validateSingleResponse resp with
  | .ok r => .ok r
  | .error msg => .error (generateErrorResponse msg now lang hasDate hasPrompt)

/-- The only error messages the single-response validation can throw. -/
theorem validateSingleResponse_error_mem (resp : GenResponse) (msg : String)
    (hval : validateSingleResponse resp = .error msg) :
    msg = "No response generated from Gemini API - no candidates returned" ∨
    msg = "Invalid response structure from Gemini API - candidate is null" ∨
    msg = "Invalid response structure from Gemini API - no content in candidate" ∨
    msg = "Invalid response structure from Gemini API - no parts in content" ∨
    msg = "No inline image content generated in response" ∨
    msg = "unreachable" := by
  unfold validateSingleResponse at hval
  cases hcs : resp.candidates with
  | none =>
      rw [hcs] at hval
      injection hval with h
      exact Or.inl h.symm
  | some cands =>
      rw [hcs] at hval
      dsimp only at hval
      by_cases hlen : cands.length = 0
      · rw [if_pos hlen] at hval
        injection hval with h
        exact Or.inl h.symm
      · rw [if_neg hlen] at hval
        cases hh : cands.head? with
        | none =>
            rw [hh] at hval
            dsimp only at hval
            injection hval with h
            exact Or.inr (Or.inl h.symm)
        | some oc =>
            cases oc with
            | none =>
                rw [hh] at hval
                dsimp only at hval
                injection hval with h
                exact Or.inr (Or.inl h.symm)
            | some cand =>
                rw [hh] at hval
                dsimp only at hval
                cases hct : cand.content with
                | none =>
                    rw [hct] at hval
                    dsimp only at hval
                    injection hval with h
                    exact Or.inr (Or.inr (Or.inl h.symm))
                | some content =>
                    rw [hct] at hval
                    dsimp only at hval
                    cases hpt : content.parts with
                    | none =>
                        rw [hpt] at hval
                        dsimp only at hval
                        injection hval with h
                        exact Or.inr (Or.inr (Or.inr (Or.inl h.symm)))
                    | some parts =>
                        rw [hpt] at hval
                        dsimp only at hval
                        by_cases hpl : parts.length = 0
                        · rw [if_pos hpl] at hval
                          injection hval with h
                          exact Or.inr (Or.inr (Or.inr (Or.inl h.symm)))
                        · rw [if_neg hpl] at hval
                          cases hfi : findInlineImage parts with
                          | none =>
                              rw [hfi] at hval
                              injection hval with h
                              exact Or.inr (Or.inr (Or.inr (Or.inr (Or.inl h.symm))))
                          | some dm =>
                              rw [hfi] at hval
                              dsimp only at hval
                              exact absurd hval (by simp)

/-- Claim C8: upstream structural failures are classified by message content
into three categories with distinct status codes: a missing or empty
candidates list yields 503, a null first candidate, missing content or
missing or empty parts yield 502, and content whose parts carry no truthy
inline image datum yields 422; each error response carries the generic
user-facing message of its category plus the raw message, the time stamp and
the request metadata. -/
theorem c8_error_mapping :
    (∀ (resp : GenResponse) (now lang : String) (hd hp : Bool),
        (resp.candidates = none ∨ resp.candidates = some []) →
        generateOutcome resp now lang hd hp = .error
          { status := 503,
            error := "The AI service did not generate any content. Please try again.",
            details := "No response generated from Gemini API - no candidates returned",
            timestamp := now, reqLanguage := lang, reqHasDate := hd, reqHasPrompt := hp }) ∧
    (∀ (resp : GenResponse) (now lang : String) (hd hp : Bool) (msg : String),
        validateSingleResponse resp = .error msg →
        jsIncludesStr msg "Invalid response structure" = true →
        generateOutcome resp now lang hd hp = .error
          { status := 502,
            error := "The AI service returned an unexpected response format. Please try again.",
            details := msg,
            timestamp := now, reqLanguage := lang, reqHasDate := hd, reqHasPrompt := hp }) ∧
    (∀ (resp : GenResponse) (now lang : String) (hd hp : Bool) (cand : GenCandidate)
        (content : GenContent) (parts : List GenPart),
        resp.candidates = some [some cand] → cand.content = some content →
        content.parts = some parts → parts.length ≠ 0 → findInlineImage parts = none →
        generateOutcome resp now lang hd hp = .error
          { status := 422,
            error := "The AI service could not generate content. Please try with a different image or prompt.",
            details := "No inline image content generated in response",
            timestamp := now, reqLanguage := lang, reqHasDate := hd, reqHasPrompt := hp }) := by
  refine ⟨?_, ?_, ?_⟩
  · intro resp now lang hd hp hc
    have hval : validateSingleResponse resp =
        .error "No response generated from Gemini API - no candidates returned" := by
      unfold validateSingleResponse
      rcases hc with hc | hc <;> rw [hc] <;> simp
    unfold generateOutcome
    rw [hval]
    rfl
  · intro resp now lang hd hp msg hval hinc
    have hmem := validateSingleResponse_error_mem resp msg hval
    unfold generateOutcome
    rw [hval]
    unfold generateErrorResponse
    rcases hmem with h | h | h | h | h | h <;> subst h
    · exact absurd hinc (by decide)
    · rfl
    · rfl
    · rfl
    · exact absurd hinc (by decide)
    · exact absurd hinc (by decide)
  · intro resp now lang hd hp cand content parts hcs hct hpt hpl hfi
    have hval : validateSingleResponse resp =
        .error "No inline image content generated in response" := by
      unfold validateSingleResponse
      rw [hcs]
      dsimp only
      rw [if_neg (by simp)]
      dsimp only [List.head?]
      rw [hct]
      dsimp only
      rw [hpt]
      dsimp only
      rw [if_neg hpl, hfi]
    unfold generateOutcome
    rw [hval]
    rfl

/-- Concrete instance of claim C8: a response with no candidates list maps to
the 503 body with the generic message and the raw thrown message as
details. -/
theorem c8_witness :
    generateOutcome { candidates := none } "2025-01-01T00:00:00.000Z" "en" false true =
      .error
        { status := 503,
          error := "The AI service did not generate any content. Please try again.",
          details := "No response generated from Gemini API - no candidates returned",
          timestamp := "2025-01-01T00:00:00.000Z", reqLanguage := "en",
          reqHasDate := false, reqHasPrompt := true } :=
  c8_error_mapping.1 { candidates := none } "2025-01-01T00:00:00.000Z" "en" false true
    (Or.inl rfl)

/-- Key written by the upload endpoint: purpose tag and timestamp only, no
random component. -/
def uploadedKey (ts : Nat) (ext : String) : String :=
  "uploaded-" ++ natToDecimal ts ++ "." ++ ext

/-- Extension chosen by the upload endpoint: original filename extension,
else extension derived from MIME type, else jpg. -/
def uploadExtension (n : NormalizedImageData) : String :=
  jsOrD (jsOr (getExtensionFromFilename (some n.filename))
    (getExtensionFromMimeType (some n.mimeType))) "jpg"

/-- Extension chosen by the upload-generated endpoint: as for upload but
defaulting to png. -/
def uploadGeneratedExtension (n : NormalizedImageData) : String :=
  jsOrD (jsOr (getExtensionFromFilename (some n.filename))
    (getExtensionFromMimeType (some n.mimeType))) "png"

/-- Key written by the upload-generated endpoint. -/
def newspaperKey (ts : Nat) (randomId ext : String) : String :=
  "my-ai-time-travel-newspaper-" ++ natToDecimal ts ++ "-" ++ randomId ++ "." ++ ext

/-- Key written by the combine-images endpoint. -/
def combinedKey (ts : Nat) (rand ext : String) : String :=
  "combined-" ++ natToDecimal ts ++ "-" ++ rand ++ "." ++ ext

/-- Splitting at a separator that occurs in neither left part is unique. -/
theorem sep_split (sep : Char) :
    ∀ (a b r s : List Char), sep ∉ a → sep ∉ b →
      a ++ sep :: r = b ++ sep :: s → a = b ∧ r = s := by
  intro a
  induction a with
  | nil =>
      intro b r s _ hb h
      cases b with
      | nil =>
          simp only [List.nil_append] at h
          exact ⟨rfl, by injection h⟩
      | cons x b' =>
          simp only [List.nil_append, List.cons_append] at h
          injection h with h1 h2
          exact absurd (h1 ▸ List.mem_cons_self x b') (h1 ▸ hb)
  | cons x a' ih =>
      intro b r s ha hb h
      cases b with
      | nil =>
          simp only [List.cons_append, List.nil_append] at h
          injection h with h1 h2
          exact absurd (h1 ▸ List.mem_cons_self x a') (h1 ▸ ha)
      | cons y b' =>
          simp only [List.cons_append] at h
          injection h with h1 h2
          have ha' : sep ∉ a' := fun hc => ha (List.mem_cons_of_mem _ hc)
          have hb' : sep ∉ b' := fun hc => hb (List.mem_cons_of_mem _ hc)
          obtain ⟨he, hr⟩ := ih b' r s ha' hb' h2
          exact ⟨by rw [h1, he], hr⟩

/-- Equal character data means equal strings. -/
theorem strData_inj (s t : String) (h : s.data = t.data) : s = t := by
  cases s
  cases t
  exact congrArg String.mk h

/-- Character data of an appended string. -/
theorem strData_append (s t : String) : (s ++ t).data = s.data ++ t.data := by
  cases s
  cases t
  rfl

/-- A printed natural never contains a dash. -/
theorem natToDecimal_no_dash (n : Nat) : '-' ∉ (natToDecimal n).data := by
  intro hc
  exact (natToDecimal_ne_seps n '-' hc).1 rfl

/-- A printed natural never contains a dot. -/
theorem natToDecimal_no_dot (n : Nat) : '.' ∉ (natToDecimal n).data := by
  intro hc
  exact (natToDecimal_ne_seps n '.' hc).2 rfl

/-- Injectivity of keys of the shape tag, timestamp, dash, random, dot,
extension: given that the random part contains no dot, two equal keys have
equal components. -/
theorem tagTsRandExtKey_inj (tag : String) (ts1 ts2 : Nat) (r1 r2 e1 e2 : String)
    (hdot1 : '.' ∉ r1.data) (hdot2 : '.' ∉ r2.data)
    (h : tag ++ natToDecimal ts1 ++ "-" ++ r1 ++ "." ++ e1 =
      tag ++ natToDecimal ts2 ++ "-" ++ r2 ++ "." ++ e2) :
    ts1 = ts2 ∧ r1 = r2 ∧ e1 = e2 := by
  have hd := congrArg String.data h
  simp only [strData_append, List.append_assoc] at hd
  have hd2 := List.append_cancel_left hd
  have hdash : ("-" : String).data = ['-'] := rfl
  have hdot : ("." : String).data = ['.'] := rfl
  simp only [hdash, hdot, List.singleton_append] at hd2
  obtain ⟨hts, hrest⟩ := sep_split '-' _ _ _ _
    (natToDecimal_no_dash ts1) (natToDecimal_no_dash ts2) hd2
  obtain ⟨hr, he⟩ := sep_split '.' _ _ _ _ hdot1 hdot2 hrest
  exact ⟨natToDecimal_inj ts1 ts2 (strData_inj _ _ hts),
    strData_inj _ _ hr, strData_inj _ _ he⟩

/-- Injectivity of the batch generated keys: equal keys have equal timestamp,
item index, random suffix and extension, provided the random suffixes contain
neither a dash nor a dot (the base-36 suffixes the code draws never do). -/
theorem batchKey_inj (ts1 ts2 i1 i2 : Nat) (r1 r2 e1 e2 : String)
    (hr1 : ∀ c ∈ r1.data, c ≠ '-' ∧ c ≠ '.') (hr2 : ∀ c ∈ r2.data, c ≠ '-' ∧ c ≠ '.')
    (h : batchKey ts1 i1 r1 e1 = batchKey ts2 i2 r2 e2) :
    ts1 = ts2 ∧ i1 = i2 ∧ r1 = r2 ∧ e1 = e2 := by
  unfold batchKey at h
  have hd := congrArg String.data h
  simp only [strData_append, List.append_assoc] at hd
  have hd2 := List.append_cancel_left hd
  have hdash : ("-" : String).data = ['-'] := rfl
  have hdot : ("." : String).data = ['.'] := rfl
  simp only [hdash, hdot, List.singleton_append] at hd2
  obtain ⟨hts, hrest⟩ := sep_split '-' _ _ _ _
    (natToDecimal_no_dash ts1) (natToDecimal_no_dash ts2) hd2
  obtain ⟨hi, hrest2⟩ := sep_split '-' _ _ _ _
    (natToDecimal_no_dash i1) (natToDecimal_no_dash i2) hrest
  obtain ⟨hr, he⟩ := sep_split '.' _ _ _ _
    (fun hc => (hr1 '.' hc).2 rfl) (fun hc => (hr2 '.' hc).2 rfl) hrest2
  exact ⟨natToDecimal_inj ts1 ts2 (strData_inj _ _ hts),
    natToDecimal_inj i1 i2 (strData_inj _ _ hi),
    strData_inj _ _ hr, strData_inj _ _ he⟩

/-- Claim C9, counterexample: the upload endpoint's key has no random
component, so two distinct upload operations (here: different image bytes) in
the same millisecond with the same derived extension write the very same
key: the claimed every-key-has-a-random-suffix uniqueness fails for the
uploaded purpose. -/
theorem c9_counterexample :
    uploadedKey 1700000000000
        (uploadExtension { buffer := [1], mimeType := "image/jpeg", filename := "a.jpg" }) =
      uploadedKey 1700000000000
        (uploadExtension { buffer := [2], mimeType := "image/jpeg", filename := "b.jpg" }) ∧
    ({ buffer := [1], mimeType := "image/jpeg", filename := "a.jpg" } : NormalizedImageData) ≠
      { buffer := [2], mimeType := "image/jpeg", filename := "b.jpg" } :=
  ⟨rfl, by decide⟩

/-- Claim C9 as amended: the generated, combined and newspaper keys are
composed of their purpose tag, the timestamp, a random suffix and the
extension, and two such keys coincide only when all their components
coincide (so keys differ whenever any of timestamp, index or random draw
differs); the uploaded key however is only the tag, the timestamp and the
extension, with no random component, so upload writes collide whenever
timestamp and extension repeat. -/
theorem c9_key_structure :
    (∀ (ts1 ts2 i1 i2 : Nat) (r1 r2 e1 e2 : String),
        (∀ c ∈ r1.data, c ≠ '-' ∧ c ≠ '.') → (∀ c ∈ r2.data, c ≠ '-' ∧ c ≠ '.') →
        batchKey ts1 i1 r1 e1 = batchKey ts2 i2 r2 e2 →
        ts1 = ts2 ∧ i1 = i2 ∧ r1 = r2 ∧ e1 = e2) ∧
    (∀ (ts1 ts2 : Nat) (r1 r2 e1 e2 : String),
        '.' ∉ r1.data → '.' ∉ r2.data →
        combinedKey ts1 r1 e1 = combinedKey ts2 r2 e2 →
        ts1 = ts2 ∧ r1 = r2 ∧ e1 = e2) ∧
    (∀ (ts1 ts2 : Nat) (r1 r2 e1 e2 : String),
        '.' ∉ r1.data → '.' ∉ r2.data →
        newspaperKey ts1 r1 e1 = newspaperKey ts2 r2 e2 →
        ts1 = ts2 ∧ r1 = r2 ∧ e1 = e2) ∧
    (∀ (ts : Nat) (ext : String),
        uploadedKey ts ext = "uploaded-" ++ natToDecimal ts ++ "." ++ ext) := by
  refine ⟨batchKey_inj, ?_, ?_, fun ts ext => rfl⟩
  · intro ts1 ts2 r1 r2 e1 e2 h1 h2 h
    exact tagTsRandExtKey_inj "combined-" ts1 ts2 r1 r2 e1 e2 h1 h2 h
  · intro ts1 ts2 r1 r2 e1 e2 h1 h2 h
    exact tagTsRandExtKey_inj "my-ai-time-travel-newspaper-" ts1 ts2 r1 r2 e1 e2 h1 h2 h

/-- Concrete instance of the amended claim C9: equal generated keys force
equal components. -/
theorem c9_witness :
    (1700000000000 : Nat) = 1700000000000 ∧ (0 : Nat) = 0 ∧
      ("abc123" : String) = "abc123" ∧ ("png" : String) = "png" :=
  c9_key_structure.1 1700000000000 1700000000000 0 0 "abc123" "abc123" "png" "png"
    (by decide) (by decide) rfl

/-- The payloads table of the durable object: id to serialized JSON text, as
in its single SQL table. -/
abbrev PayloadTable := List (String × String)

/-- Read the serialized text stored under an id. -/
def storeGet : PayloadTable → String → Option String
  | [], _ => none
  | (k, v) :: rest, id => if k = id then some v else storeGet rest id

/-- Upsert keyed by id, as the insert-on-conflict-update statement does. -/
def storePut : PayloadTable → String → String → PayloadTable
  | [], id, data => [(id, data)]
  | (k, v) :: rest, id, data =>
      if k = id then (k, data) :: rest else (k, v) :: storePut rest id data

/-- Responses of the PayloadStore durable object: a JSON body with status
200, or the 400, 404 and 500 error bodies. -/
inductive DOResponse where
  | okJson (body : String)
  | badRequest (error : String)
  | notFound (error : String)
  | serverError (error : String)

/-- The PUT branch of PayloadStore.fetch (after the content-type check):
parse the request body, re-serialize it and upsert it under the record id. -/
def payloadStorePut (st : PayloadTable) (recordId : String) (body : String) :
    PayloadTable × DOResponse :=
  match jsonParse body with
  | none => (st, .badRequest "Invalid JSON body")
  | some payload =>
      (storePut st recordId (jsonStringify payload), .okJson "\x7b\"success\":true\x7d")

/-- The GET branch of PayloadStore.fetch: a missing row is the distinct
not-found outcome (404); a row whose text no longer parses is the distinct
corrupted outcome (500); otherwise the parsed payload is re-serialized into
the response body. -/
def payloadStoreGet (st : PayloadTable) (recordId : String) : DOResponse :=
  match storeGet st recordId with
  | none => .notFound "Not found"
  | some data =>
      match jsonParse data with
      | none => .serverError "Stored payload is corrupted"
      | some parsed => .okJson (jsonStringify parsed)

/-- Responses of the worker payload endpoints: 201 on creation, 200 on read,
and the 400, 404 and 500 error bodies. -/
inductive PayloadApiResult where
  | created (id : String) (payload : JSValue)
  | okPayload (id : String) (payload : JSValue)
  | badRequest (error : String)
  | notFound (error : String)
  | serverError (error : String)

/-- The POST payloads endpoint (after the content-type check): parse the
body, generate a fresh id (passed in, modelling crypto.randomUUID), forward
the re-serialized payload to the durable object, and answer 201 with the id
and the payload; any non-ok stub response becomes a 500. -/
def apiPayloadsPost (st : PayloadTable) (freshId : String) (body : String) :
    PayloadTable × PayloadApiResult :=
  match jsonParse body with
  | none => (st, .badRequest "Invalid JSON body")
  | some payload =>
      let pr := payloadStorePut st freshId (jsonStringify payload)
      match pr.2 with
      | .okJson _ => (pr.1, .created freshId payload)
      | _ => (pr.1, .serverError "Failed to save payload")

/-- The GET payloads endpoint: an empty id is a 400; a 404 from the durable
object stays a 404; any other stub failure becomes a 500; a 200 body is
parsed and answered with the id and the payload. -/
def apiPayloadsGet (st : PayloadTable) (id : String) : PayloadApiResult :=
  if id = "" then .badRequest "Payload id is required"
  else
    match payloadStoreGet st id with
    | .notFound _ => .notFound "Payload not found"
    | .okJson body =>
        match jsonParse body with
        | some payloadResponse => .okPayload id payloadResponse
        | none => .serverError "Unexpected response from storage"
    | _ => .serverError "Failed to retrieve payload"

/-- Reading back the id just written yields the written text. -/
theorem storeGet_storePut_self (st : PayloadTable) (id data : String) :
    storeGet (storePut st id data) id = some data := by
  induction st with
  | nil => simp [storePut, storeGet]
  | cons kv rest ih =>
      obtain ⟨k, v⟩ := kv
      by_cases hk : k = id
      · simp [storePut, storeGet, hk]
      · simp [storePut, storeGet, hk, ih]

/-- Claim C7: a payload whose serialization parses back to itself (which is
what JSON-serializable means for values coming out of JSON.parse) is stored
under the fresh id by POST and returned unchanged by a subsequent GET of
that id; a GET for an id never written yields the 404 not-found outcome; a
stored row that no longer parses yields the distinct 500 corrupted
outcome. -/
theorem c7_payload_roundtrip :
    (∀ (st : PayloadTable) (freshId body : String) (p : JSValue),
        freshId ≠ "" →
        jsonParse body = some p →
        jsonParse (jsonStringify p) = some p →
        apiPayloadsPost st freshId body =
          (storePut st freshId (jsonStringify p), .created freshId p) ∧
        apiPayloadsGet (storePut st freshId (jsonStringify p)) freshId =
          .okPayload freshId p) ∧
    (∀ (st : PayloadTable) (id : String), id ≠ "" → storeGet st id = none →
        apiPayloadsGet st id = .notFound "Payload not found") ∧
    (∀ (st : PayloadTable) (id data : String), id ≠ "" → storeGet st id = some data →
        jsonParse data = none →
        payloadStoreGet st id = .serverError "Stored payload is corrupted" ∧
        apiPayloadsGet st id = .serverError "Failed to retrieve payload") := by
  refine ⟨?_, ?_, ?_⟩
  · intro st freshId body p hid hbody hrt
    constructor
    · unfold apiPayloadsPost payloadStorePut
      rw [hbody]
      dsimp only
      rw [hrt]
    · unfold apiPayloadsGet payloadStoreGet
      rw [if_neg hid, storeGet_storePut_self]
      dsimp only
      rw [hrt]
      dsimp only
      rw [hrt]
  · intro st id hid hmiss
    unfold apiPayloadsGet payloadStoreGet
    rw [if_neg hid, hmiss]
  · intro st id data hid hdata hcorrupt
    have hdo : payloadStoreGet st id = .serverError "Stored payload is corrupted" := by
      unfold payloadStoreGet
      rw [hdata]
      dsimp only
      rw [hcorrupt]
    refine ⟨hdo, ?_⟩
    unfold apiPayloadsGet
    rw [if_neg hid, hdo]

/-- Concrete instance of claim C7: the spec example round-trips, and a GET
for an id never written is the 404 outcome, not the corrupted one. -/
theorem c7_witness :
    apiPayloadsGet (storePut [] "test-id" (jsonStringify (.jsObj [("foo", .jsStr "bar")])))
        "test-id" = .okPayload "test-id" (.jsObj [("foo", .jsStr "bar")]) ∧
    apiPayloadsGet [] "missing-id" = .notFound "Payload not found" :=
  ⟨(c7_payload_roundtrip.1 [] "test-id" "\x7b\"foo\":\"bar\"\x7d"
      (.jsObj [("foo", .jsStr "bar")]) (by decide) rfl rfl).2,
    c7_payload_roundtrip.2.1 [] "missing-id" (by decide) rfl⟩
